import Mathlib

/-!
Verification development for the logisticopilot repository.

The Python source is shallowly embedded: DataFrames become lists of named
columns of loosely-typed values, strings are Lean strings with ASCII case
operations (the manifests and pattern tables in the source are ASCII), and
pandas per-element operations become `List.map`.  Fallible operations
(e.g. column access that can raise `KeyError`) return `Option`.
-/

/- ## String primitives modelling Python `str` methods (ASCII model) -/

/-- Python `chr.lower()` for one character (ASCII range, as used by the app's
column names and questions). -/
def downChar (c : Char) : Char :=
  if 65 ≤ c.toNat ∧ c.toNat ≤ 90 then Char.ofNat (c.toNat + 32) else c

/-- Python `chr.upper()` for one character (ASCII range). -/
def upChar (c : Char) : Char :=
  if 97 ≤ c.toNat ∧ c.toNat ≤ 122 then Char.ofNat (c.toNat - 32) else c

/-- ASCII letter test (Python `str.isalpha` restricted to ASCII). -/
def alphaChar (c : Char) : Bool :=
  (65 ≤ c.toNat && c.toNat ≤ 90) || (97 ≤ c.toNat && c.toNat ≤ 122)

/-- Python `s.lower()`. -/
def pyLower (s : String) : String := ⟨s.data.map downChar⟩

/-- Python `s.upper()`. -/
def pyUpper (s : String) : String := ⟨s.data.map upChar⟩

/-- Does the character list start with the given needle? -/
def startsWithCL : List Char → List Char → Bool
  | _, [] => true
  | [], _ :: _ => false
  | c :: cs, n :: ns => c == n && startsWithCL cs ns

/-- Substring occurrence on character lists (Python `needle in hay`). -/
def hasSubCL : List Char → List Char → Bool
  | [], needle => needle.isEmpty
  | c :: cs, needle => startsWithCL (c :: cs) needle || hasSubCL cs needle

/-- Python `needle in hay` for strings. -/
def strContains (hay needle : String) : Bool := hasSubCL hay.data needle.data

/- ## `utils/column_utils.py` -/

/-- The `STANDARD_COLUMNS` table from `utils/column_utils.py`: the pattern table mapping
each standard logistics field to its candidate name variants, in priority
order. -/
def STANDARD_COLUMNS : List (String × List String) :=
  [ ("shipment_id", ["shipment_id", "shipment id", "id", "tracking_number", "tracking number"]),
    ("carrier", ["carrier", "carrier_name", "carrier name", "shipping_company", "shipping company"]),
    ("origin", ["origin", "origin_city", "origin city", "from", "pickup_location", "pickup location"]),
    ("destination", ["destination", "destination_city", "destination city", "to", "delivery_location", "delivery location"]),
    ("weight", ["weight", "weight_kg", "weight kg", "total_weight", "total weight"]),
    ("status", ["status", "shipment_status", "shipment status", "delivery_status", "delivery status"]),
    ("date", ["date", "ship_date", "ship date", "pickup_date", "pickup date", "created_date", "created date"]),
    ("delivery_date", ["delivery_date", "delivery date", "expected_delivery", "expected delivery", "eta"]),
    ("cost", ["cost", "shipping_cost", "shipping cost", "price", "amount", "total_cost", "total cost"]),
    ("priority", ["priority", "priority_level", "priority level", "urgency", "service_level", "service level"]) ]

/-- The `detect_column_mapping` function from `utils/column_utils.py` (over the list of
column names of the DataFrame).  For each standard field it takes the first
candidate variant that is (lower-cased) equal to some column's lower-cased
name, and maps the field to the column at `df_columns_lower.index(variant)`
(first such column, original case preserved); fields with no matching variant
map to `none`.  The Python code hoists `df_columns_lower`; here it is written
inline. -/
def detect_column_mapping (cols : List String) : List (String × Option String) :=
  STANDARD_COLUMNS.map (fun p =>
    (p.1, (p.2.find? (fun n => (cols.map pyLower).contains n)).map
      (fun n => cols.getD ((cols.map pyLower).findIdx (fun y => y == n)) "")))

/-- Python `mapping.get(k)`: `None` both when the key is absent and when it is
stored as `None`. -/
def mappingGet (m : List (String × Option String)) (k : String) : Option String :=
  (m.find? (fun p => p.1 == k)).bind (fun p => p.2)

/-- The `validate_required_columns` function from `utils/column_utils.py` with its default
required set. -/
def validate_required_columns (cols : List String)
    (required : List String := ["carrier", "origin", "destination"]) :
    Bool × List String :=
  let mapping := detect_column_mapping cols
  let missing := required.filter (fun r => (mappingGet mapping r).isNone)
  (missing.length == 0, missing)

/-- The `get_column_suggestions` function from `utils/column_utils.py`: for each standard
field, the uploaded columns (first-occurrence order, de-duplicated) for which
some candidate variant occurs as a substring of the lower-cased column name or
vice versa; truncated to the first 3. -/
def get_column_suggestions (cols : List String) : List (String × List String) :=
  STANDARD_COLUMNS.map (fun p =>
    let columnSuggestions := cols.foldl (fun acc df_col =>
      if p.2.any (fun n => strContains (pyLower df_col) n || strContains n (pyLower df_col)) then
        if acc.contains df_col then acc else acc ++ [df_col]
      else acc) []
    (p.1, columnSuggestions.take 3))

/- ## Claim-side resolver definitions -/

/-- Lower-case and collapse the separators named by claim C1: spaces,
underscores and hyphens all become a single separator symbol. -/
def normSeparators (s : String) : String :=
  ⟨(pyLower s).data.map (fun c => if c == ' ' || c == '-' then '_' else c)⟩

/-- The resolver as claim C1 words it: for each standard field, the first
candidate variant matching some column case-insensitively and exactly after
normalizing spaces/underscores/hyphens to a single separator wins, and the
field maps to the first such column. -/
def resolveClaimC1 (cols : List String) : List (String × Option String) :=
  STANDARD_COLUMNS.map (fun p =>
    (p.1, (p.2.find? (fun n => cols.any (fun c => normSeparators c == normSeparators n))).bind
      (fun n => cols.find? (fun c => normSeparators c == normSeparators n))))

/-- The resolver as amended claim C1 words it: for each standard field, the
first candidate variant that equals some column's lower-cased name wins (plain
case-insensitive exact match, no separator normalization), and the field maps
to the first such column. -/
def resolveExactCI (cols : List String) : List (String × Option String) :=
  STANDARD_COLUMNS.map (fun p =>
    (p.1, (p.2.find? (fun n => cols.any (fun c => pyLower c == n))).bind
      (fun n => cols.find? (fun c => pyLower c == n))))

/- ## Lemmas relating the code resolver to the amended claim resolver -/

theorem contains_map_eq_any (cols : List String) (f : String → String) (n : String) :
    (cols.map f).contains n = cols.any (fun c => f c == n) := by
  induction cols with
  | nil => rfl
  | cons c cs ih =>
    simp only [List.map_cons, List.contains_cons, List.any_cons, ih]
    rw [Bool.beq_comm]

theorem getD_findIdx_eq_find? (cols : List String) (f : String → String) (n : String)
    (h : cols.any (fun c => f c == n) = true) :
    some (cols.getD ((cols.map f).findIdx (fun y => y == n)) "")
      = cols.find? (fun c => f c == n) := by
  induction cols with
  | nil => simp at h
  | cons c cs ih =>
    by_cases hc : f c == n
    · simp [List.findIdx_cons, hc, List.find?_cons_of_pos]
    · simp only [List.any_cons, hc, Bool.false_or] at h
      have hih := ih h
      simp only [List.getD, List.get?_eq_getElem?] at hih
      simp [List.findIdx_cons, hc, List.find?_cons_of_neg, hih]

theorem detect_eq_resolveExactCI (cols : List String) :
    detect_column_mapping cols = resolveExactCI cols := by
  unfold detect_column_mapping resolveExactCI
  refine List.map_congr_left (fun p _ => ?_)
  have hpred : (fun n => (cols.map pyLower).contains n)
      = (fun n => cols.any (fun c => pyLower c == n)) :=
    funext (fun n => contains_map_eq_any cols pyLower n)
  rw [hpred]
  refine congrArg (Prod.mk p.1) ?_
  cases hf : p.2.find? (fun n => cols.any (fun c => pyLower c == n)) with
  | none => rfl
  | some n =>
    have hn := List.find?_some hf
    exact getD_findIdx_eq_find? cols pyLower n hn

/- ## Claim C1 -/

/-- Counterexample to claim C1: the code resolver does not normalize hyphens.
On the uploaded column list `["Carrier-Name"]` the claimed matching rule
(case-insensitive exact match after normalizing spaces/underscores/hyphens to
one separator) maps `carrier` to `"Carrier-Name"`, but `detect_column_mapping`
leaves `carrier` absent. -/
theorem claim_C1_counterexample :
    mappingGet (detect_column_mapping ["Carrier-Name"]) "carrier" = none ∧
    mappingGet (resolveClaimC1 ["Carrier-Name"]) "carrier" = some "Carrier-Name" := by
  constructor <;> rfl

/-- Claim C1 (amended): the resolver maps each standard field to the uploaded
column matched by the first candidate variant, in the pattern table's priority
order, that matches case-insensitively and exactly (no separator
normalization; the pattern table itself lists space and underscore variants),
and leaves the field absent when no variant matches; resolving
`["Carrier", "Origin", "Destination"]` maps carrier to `"Carrier"`, origin to
`"Origin"`, destination to `"Destination"`, and `validate_required_columns`
on that list returns `(true, [])`. -/
theorem claim_C1_amended :
    (∀ cols, detect_column_mapping cols = resolveExactCI cols) ∧
    mappingGet (detect_column_mapping ["Carrier", "Origin", "Destination"]) "carrier"
      = some "Carrier" ∧
    mappingGet (detect_column_mapping ["Carrier", "Origin", "Destination"]) "origin"
      = some "Origin" ∧
    mappingGet (detect_column_mapping ["Carrier", "Origin", "Destination"]) "destination"
      = some "Destination" ∧
    validate_required_columns ["Carrier", "Origin", "Destination"] = (true, []) :=
  ⟨detect_eq_resolveExactCI, rfl, rfl, rfl, rfl⟩

/- ## Claim C6 -/

/-- Counterexample to claim C6: resolving `["CarrierName"]` does not map the
`carrier` field at all — `detect_column_mapping` only does case-insensitive
exact matching against the variant list, and no variant equals
`"carriername"`. -/
theorem claim_C6_counterexample :
    mappingGet (detect_column_mapping ["CarrierName"]) "carrier" = none := by
  rfl

/-- Claim C6 (amended): resolving `["CarrierName"]` leaves the standard field
`carrier` unmapped; it is only the suggestion function that associates
`"CarrierName"` with `carrier`, via case-insensitive substring matching. -/
theorem claim_C6_amended :
    mappingGet (detect_column_mapping ["CarrierName"]) "carrier" = none ∧
    (get_column_suggestions ["CarrierName"]).find? (fun p => p.1 == "carrier")
      = some ("carrier", ["CarrierName"]) := by
  constructor <;> rfl

/- ## Data model: loosely-typed tabular values (spec section 3) -/

/-- A calendar date as produced by `pd.to_datetime`. -/
structure Date where
  year : Nat
  month : Nat
  day : Nat
deriving DecidableEq

/-- A manifest cell: string, number, parsed date, or null.  Numbers are
modelled as rationals (the claims only exercise exact decimal values). -/
inductive Value where
  | vstr (s : String)
  | vnum (q : ℚ)
  | vdate (d : Date)
  | vnull
deriving DecidableEq

/-- A DataFrame: named columns of values plus the row count (`len(df)`). -/
structure DF where
  cols : List (String × List Value)
  nrows : Nat
deriving DecidableEq

/-- Python whitespace test for `str.strip` (ASCII whitespace: space, tab,
newline, vertical tab, form feed, carriage return). -/
def isWsChar (c : Char) : Bool :=
  c.toNat == 32 || c.toNat == 9 || c.toNat == 10 || c.toNat == 11 ||
    c.toNat == 12 || c.toNat == 13

/-- Strip on character lists: drop whitespace from both ends. -/
def stripCL (cs : List Char) : List Char :=
  ((cs.dropWhile isWsChar).reverse.dropWhile isWsChar).reverse

/-- Python `s.strip()`. -/
def pyStrip (s : String) : String := ⟨stripCL s.data⟩

/-- Python `s.title()` worker: upper-case a letter after a non-letter,
lower-case a letter after a letter; the flag records whether the previous
character was a letter. -/
def pyTitleGo : Bool → List Char → List Char
  | _, [] => []
  | prevAlpha, c :: cs =>
    if alphaChar c then
      (if prevAlpha then downChar c else upChar c) :: pyTitleGo true cs
    else
      c :: pyTitleGo false cs

/-- Python `s.title()`. -/
def pyTitle (s : String) : String := ⟨pyTitleGo false s.data⟩

/-- Digits of a decimal numeral to the number they denote. -/
def digitsToNat (cs : List Char) : Nat :=
  cs.foldl (fun acc c => acc * 10 + (c.toNat - 48)) 0

/-- ASCII digit test. -/
def digitChar (c : Char) : Bool := 48 ≤ c.toNat && c.toNat ≤ 57

/-- Modelled subset of the conversion `pd.to_numeric` applies to a string:
optional sign, then decimal digits with an optional fractional part.
Scientific notation and other accepted spellings are not modelled; no claim
exercises them. -/
def parseNumber (s : String) : Option ℚ :=
  let cs := (pyStrip s).data
  let signed : Int × List Char :=
    match cs with
    | '-' :: t => (-1, t)
    | '+' :: t => (1, t)
    | t => (1, t)
  let intPart := signed.2.takeWhile digitChar
  let rest := signed.2.dropWhile digitChar
  match rest with
  | [] =>
    if intPart.isEmpty then none
    else some (mkRat (signed.1 * digitsToNat intPart) 1)
  | '.' :: frac =>
    if frac.all digitChar && (!intPart.isEmpty || !frac.isEmpty) then
      some (mkRat
        (signed.1 * (digitsToNat intPart * 10 ^ frac.length + digitsToNat frac))
        (10 ^ frac.length))
    else none
  | _ => none

/-- Modelled subset of the conversion `pd.to_datetime` applies to a string:
ISO `YYYY-MM-DD`; other spellings coerce to null.  No claim exercises other
date spellings. -/
def parseDateISO (s : String) : Option Date :=
  match (pyStrip s).data with
  | [y1, y2, y3, y4, '-', m1, m2, '-', d1, d2] =>
    if [y1, y2, y3, y4, m1, m2, d1, d2].all digitChar then
      some ⟨digitsToNat [y1, y2, y3, y4], digitsToNat [m1, m2], digitsToNat [d1, d2]⟩
    else none
  | _ => none

/-- pandas `.str.strip().str.title()` elementwise: non-strings (nulls
included) become null, as the `.str` accessor yields NaN for them on an
object-dtype column. -/
def stripTitleVal : Value → Value
  | .vstr s => .vstr (pyTitle (pyStrip s))
  | _ => .vnull

/-- pandas `.str.strip().str.lower()` elementwise, same null behaviour. -/
def stripLowerVal : Value → Value
  | .vstr s => .vstr (pyLower (pyStrip s))
  | _ => .vnull

/-- pandas `pd.to_numeric(col, errors="coerce")` elementwise.  A date value is
modelled as coercing to null (pandas would produce epoch nanoseconds; no claim
exercises that path). -/
def toNumericVal : Value → Value
  | .vstr s => match parseNumber s with | some q => .vnum q | none => .vnull
  | .vnum q => .vnum q
  | _ => .vnull

/-- pandas `pd.to_datetime(col, errors="coerce")` elementwise.  A numeric
value is modelled as coercing to null (pandas would read it as an epoch
offset; no claim exercises that path). -/
def toDatetimeVal : Value → Value
  | .vstr s => match parseDateISO s with | some d => .vdate d | none => .vnull
  | .vdate d => .vdate d
  | _ => .vnull

/-- The per-field cleaning operations of `clean_column_data` in
`utils/column_utils.py`, in source order: carrier, status, origin,
destination (string normalization), weight, cost (numeric coercion), date,
delivery_date (date parsing). -/
def cleanOps : List (String × (Value → Value)) :=
  [ ("carrier", stripTitleVal), ("status", stripLowerVal),
    ("origin", stripTitleVal), ("destination", stripTitleVal),
    ("weight", toNumericVal), ("cost", toNumericVal),
    ("date", toDatetimeVal), ("delivery_date", toDatetimeVal) ]

/-- Python truthiness of `column_mapping.get(field)` as used by
`clean_column_data`: an absent key, `None`, and the empty string all skip the
cleaning step. -/
def mappingGetTruthy (m : List (String × Option String)) (k : String) : Option String :=
  match mappingGet m k with
  | some s => if s.isEmpty then none else some s
  | none => none

/-- Apply `f` elementwise to the named column(s); `none` models the `KeyError`
pandas raises when the column is absent. -/
def applyToCol (df : DF) (name : String) (f : Value → Value) : Option DF :=
  if df.cols.any (fun p => p.1 == name) then
    some ⟨df.cols.map (fun p => if p.1 == name then (p.1, p.2.map f) else p), df.nrows⟩
  else none

/-- One guarded cleaning step of `clean_column_data`. -/
def cleanStep (m : List (String × Option String)) (df : DF)
    (p : String × (Value → Value)) : Option DF :=
  match mappingGetTruthy m p.1 with
  | none => some df
  | some col => applyToCol df col p.2

/-- The `clean_column_data` function from `utils/column_utils.py`, with an
explicit mapping (as `ColumnMapper.clean_data` calls it): the eight guarded
per-field steps run in source order. -/
def clean_column_data (df : DF) (m : List (String × Option String)) : Option DF :=
  cleanOps.foldlM (cleanStep m) df

/- ## Character-level lemmas for the case operations -/

theorem toNat_ofNat_small {n : Nat} (h : n < 55296) : (Char.ofNat n).toNat = n := by
  have hv : n.isValidChar := Or.inl h
  unfold Char.ofNat
  rw [dif_pos hv]
  rfl

theorem toNat_downChar (c : Char) :
    (downChar c).toNat = if 65 ≤ c.toNat ∧ c.toNat ≤ 90 then c.toNat + 32 else c.toNat := by
  unfold downChar
  by_cases h : 65 ≤ c.toNat ∧ c.toNat ≤ 90
  · rw [if_pos h, if_pos h, toNat_ofNat_small (by omega)]
  · rw [if_neg h, if_neg h]

theorem toNat_upChar (c : Char) :
    (upChar c).toNat = if 97 ≤ c.toNat ∧ c.toNat ≤ 122 then c.toNat - 32 else c.toNat := by
  unfold upChar
  by_cases h : 97 ≤ c.toNat ∧ c.toNat ≤ 122
  · rw [if_pos h, if_pos h, toNat_ofNat_small (by omega)]
  · rw [if_neg h, if_neg h]

theorem toNat_inj_char {a b : Char} (h : a.toNat = b.toNat) : a = b := by
  rw [← Char.ofNat_toNat a, ← Char.ofNat_toNat b, h]

theorem downChar_downChar (c : Char) : downChar (downChar c) = downChar c := by
  apply toNat_inj_char
  rw [toNat_downChar, toNat_downChar]
  by_cases h : 65 ≤ c.toNat ∧ c.toNat ≤ 90
  · simp only [if_pos h]
    rw [if_neg (by omega)]
  · simp only [if_neg h]

theorem upChar_upChar (c : Char) : upChar (upChar c) = upChar c := by
  apply toNat_inj_char
  rw [toNat_upChar, toNat_upChar]
  by_cases h : 97 ≤ c.toNat ∧ c.toNat ≤ 122
  · simp only [if_pos h]
    rw [if_neg (by omega)]
  · simp only [if_neg h]

theorem alphaChar_downChar (c : Char) : alphaChar (downChar c) = alphaChar c := by
  unfold alphaChar
  rw [toNat_downChar, Bool.eq_iff_iff]
  simp only [Bool.or_eq_true, Bool.and_eq_true, decide_eq_true_eq]
  by_cases h : 65 ≤ c.toNat ∧ c.toNat ≤ 90
  · simp only [if_pos h]; omega
  · simp only [if_neg h]

theorem alphaChar_upChar (c : Char) : alphaChar (upChar c) = alphaChar c := by
  unfold alphaChar
  rw [toNat_upChar, Bool.eq_iff_iff]
  simp only [Bool.or_eq_true, Bool.and_eq_true, decide_eq_true_eq]
  by_cases h : 97 ≤ c.toNat ∧ c.toNat ≤ 122
  · simp only [if_pos h]; omega
  · simp only [if_neg h]

theorem isWsChar_downChar (c : Char) : isWsChar (downChar c) = isWsChar c := by
  unfold isWsChar
  rw [toNat_downChar, Bool.eq_iff_iff]
  simp only [Bool.or_eq_true, beq_iff_eq]
  by_cases h : 65 ≤ c.toNat ∧ c.toNat ≤ 90
  · simp only [if_pos h]; omega
  · simp only [if_neg h]

theorem isWsChar_upChar (c : Char) : isWsChar (upChar c) = isWsChar c := by
  unfold isWsChar
  rw [toNat_upChar, Bool.eq_iff_iff]
  simp only [Bool.or_eq_true, beq_iff_eq]
  by_cases h : 97 ≤ c.toNat ∧ c.toNat ≤ 122
  · simp only [if_pos h]; omega
  · simp only [if_neg h]

/- ## Whitespace and strip lemmas -/

/-- No leading whitespace character. -/
def noLeadWs (l : List Char) : Prop := ∀ c, l.head? = some c → isWsChar c = false

/-- No trailing whitespace character. -/
def noTrailWs (l : List Char) : Prop := ∀ c, l.getLast? = some c → isWsChar c = false

theorem noLeadWs_reverse (l : List Char) : noLeadWs l.reverse ↔ noTrailWs l := by
  unfold noLeadWs noTrailWs
  simp only [List.head?_reverse]

theorem noLeadWs_dropWhile (l : List Char) : noLeadWs (l.dropWhile isWsChar) := by
  induction l with
  | nil => intro c hc; simp [List.dropWhile] at hc
  | cons a t ih =>
    by_cases ha : isWsChar a
    · rw [show (a :: t).dropWhile isWsChar = t.dropWhile isWsChar by
        simp [List.dropWhile, ha]]
      exact ih
    · intro c hc
      rw [show (a :: t).dropWhile isWsChar = a :: t by simp [List.dropWhile, ha]] at hc
      simp only [List.head?_cons, Option.some.injEq] at hc
      subst hc
      simpa using ha

theorem dropWhile_eq_self_of_noLeadWs {l : List Char} (h : noLeadWs l) :
    l.dropWhile isWsChar = l := by
  cases l with
  | nil => rfl
  | cons a t =>
    have := h a rfl
    simp [List.dropWhile, this]

theorem noTrailWs_dropWhile : ∀ {l : List Char}, noTrailWs l →
    noTrailWs (l.dropWhile isWsChar)
  | [], _ => by intro c hc; simp at hc
  | a :: t, h => by
    by_cases ha : isWsChar a
    · have ht : noTrailWs t := by
        intro c hc
        cases t with
        | nil => simp at hc
        | cons b t' => exact h c (by rw [List.getLast?_cons_cons]; exact hc)
      rw [show (a :: t).dropWhile isWsChar = t.dropWhile isWsChar by
        simp [List.dropWhile, ha]]
      exact noTrailWs_dropWhile ht
    · rw [show (a :: t).dropWhile isWsChar = a :: t by simp [List.dropWhile, ha]]
      exact h

theorem stripCL_noLeadWs (cs : List Char) : noLeadWs (stripCL cs) := by
  unfold stripCL
  intro c hc
  rw [List.head?_reverse] at hc
  have hnt : noTrailWs ((cs.dropWhile isWsChar).reverse) := by
    rw [← noLeadWs_reverse, List.reverse_reverse]
    exact noLeadWs_dropWhile cs
  exact noTrailWs_dropWhile hnt c hc

theorem stripCL_noTrailWs (cs : List Char) : noTrailWs (stripCL cs) := by
  unfold stripCL
  rw [← noLeadWs_reverse, List.reverse_reverse]
  exact noLeadWs_dropWhile _

theorem stripCL_eq_self {l : List Char} (h1 : noLeadWs l) (h2 : noTrailWs l) :
    stripCL l = l := by
  unfold stripCL
  rw [dropWhile_eq_self_of_noLeadWs h1,
    dropWhile_eq_self_of_noLeadWs ((noLeadWs_reverse l).mpr h2),
    List.reverse_reverse]

theorem stripCL_idem (cs : List Char) : stripCL (stripCL cs) = stripCL cs :=
  stripCL_eq_self (stripCL_noLeadWs cs) (stripCL_noTrailWs cs)

/- ## Whitespace-pattern preservation and idempotence of the string cleaners -/

theorem noLeadWs_of_pattern {x y : List Char}
    (hp : y.map isWsChar = x.map isWsChar) (h : noLeadWs x) : noLeadWs y := by
  intro c hc
  have h1 : (y.map isWsChar).head? = some (isWsChar c) := by
    rw [List.head?_map, hc]; rfl
  rw [hp, List.head?_map] at h1
  cases hx : x.head? with
  | none => rw [hx] at h1; simp at h1
  | some d =>
    rw [hx] at h1
    simp only [Option.map_some', Option.some.injEq] at h1
    rw [← h1]
    exact h d hx

theorem noTrailWs_of_pattern {x y : List Char}
    (hp : y.map isWsChar = x.map isWsChar) (h : noTrailWs x) : noTrailWs y := by
  rw [← noLeadWs_reverse] at h ⊢
  apply noLeadWs_of_pattern _ h
  rw [List.map_reverse, List.map_reverse, hp]

theorem map_isWs_map_downChar (l : List Char) :
    (l.map downChar).map isWsChar = l.map isWsChar := by
  rw [List.map_map]
  exact List.map_congr_left (fun c _ => isWsChar_downChar c)

theorem map_isWs_titleGo (l : List Char) : ∀ b,
    (pyTitleGo b l).map isWsChar = l.map isWsChar := by
  induction l with
  | nil => intro b; rfl
  | cons c cs ih =>
    intro b
    by_cases hc : alphaChar c = true
    · cases b with
      | false => simp [pyTitleGo, hc, isWsChar_upChar, ih true]
      | true => simp [pyTitleGo, hc, isWsChar_downChar, ih true]
    · simp [pyTitleGo, hc, ih false]

theorem pyTitleGo_idem (l : List Char) : ∀ b, pyTitleGo b (pyTitleGo b l) = pyTitleGo b l := by
  induction l with
  | nil => intro b; rfl
  | cons c cs ih =>
    intro b
    by_cases hc : alphaChar c = true
    · cases b with
      | false =>
        have h1 : alphaChar (upChar c) = true := by rw [alphaChar_upChar]; exact hc
        simp [pyTitleGo, hc, h1, upChar_upChar, ih true]
      | true =>
        have h1 : alphaChar (downChar c) = true := by rw [alphaChar_downChar]; exact hc
        simp [pyTitleGo, hc, h1, downChar_downChar, ih true]
    · simp [pyTitleGo, hc, ih false]

theorem map_downChar_idem (l : List Char) :
    (l.map downChar).map downChar = l.map downChar := by
  rw [List.map_map]
  exact List.map_congr_left (fun c _ => downChar_downChar c)

theorem stripCL_titleGo_stripCL (cs : List Char) :
    stripCL (pyTitleGo false (stripCL cs)) = pyTitleGo false (stripCL cs) :=
  stripCL_eq_self
    (noLeadWs_of_pattern (map_isWs_titleGo (stripCL cs) false) (stripCL_noLeadWs cs))
    (noTrailWs_of_pattern (map_isWs_titleGo (stripCL cs) false) (stripCL_noTrailWs cs))

theorem stripCL_downChar_stripCL (cs : List Char) :
    stripCL ((stripCL cs).map downChar) = (stripCL cs).map downChar :=
  stripCL_eq_self
    (noLeadWs_of_pattern (map_isWs_map_downChar (stripCL cs)) (stripCL_noLeadWs cs))
    (noTrailWs_of_pattern (map_isWs_map_downChar (stripCL cs)) (stripCL_noTrailWs cs))

theorem stripTitleVal_idem (v : Value) : stripTitleVal (stripTitleVal v) = stripTitleVal v := by
  cases v with
  | vstr s =>
    show stripTitleVal (.vstr (pyTitle (pyStrip s))) = .vstr (pyTitle (pyStrip s))
    simp only [stripTitleVal, Value.vstr.injEq]
    unfold pyTitle pyStrip
    show (⟨pyTitleGo false (stripCL (pyTitleGo false (stripCL s.data)))⟩ : String) = _
    rw [stripCL_titleGo_stripCL, pyTitleGo_idem]
  | vnum q => rfl
  | vdate d => rfl
  | vnull => rfl

theorem stripLowerVal_idem (v : Value) : stripLowerVal (stripLowerVal v) = stripLowerVal v := by
  cases v with
  | vstr s =>
    show stripLowerVal (.vstr (pyLower (pyStrip s))) = .vstr (pyLower (pyStrip s))
    simp only [stripLowerVal, Value.vstr.injEq]
    unfold pyLower pyStrip
    show (⟨(stripCL ((stripCL s.data).map downChar)).map downChar⟩ : String) = _
    rw [stripCL_downChar_stripCL, map_downChar_idem]
  | vnum q => rfl
  | vdate d => rfl
  | vnull => rfl

theorem toNumericVal_idem (v : Value) : toNumericVal (toNumericVal v) = toNumericVal v := by
  cases v with
  | vstr s =>
    cases hp : parseNumber s <;> simp [toNumericVal, hp]
  | vnum q => rfl
  | vdate d => rfl
  | vnull => rfl

theorem toDatetimeVal_idem (v : Value) : toDatetimeVal (toDatetimeVal v) = toDatetimeVal v := by
  cases v with
  | vstr s =>
    cases hp : parseDateISO s <;> simp [toDatetimeVal, hp]
  | vnum q => rfl
  | vdate d => rfl
  | vnull => rfl

theorem cleanOps_idem : ∀ p ∈ cleanOps, ∀ v, p.2 (p.2 v) = p.2 v := by
  intro p hp v
  fin_cases hp
  · exact stripTitleVal_idem v
  · exact stripLowerVal_idem v
  · exact stripTitleVal_idem v
  · exact stripTitleVal_idem v
  · exact toNumericVal_idem v
  · exact toNumericVal_idem v
  · exact toDatetimeVal_idem v
  · exact toDatetimeVal_idem v

/- ## Characterization of a run of the cleaning pipeline -/

/-- The composite transformation a column with the given name receives from a
run of the listed cleaning steps under mapping `m`. -/
def colTransform (m : List (String × Option String)) (name : String)
    (ops : List (String × (Value → Value))) (v : Value) : Value :=
  ops.foldl (fun acc p => if mappingGetTruthy m p.1 == some name then p.2 acc else acc) v

theorem colTransform_nil (m : List (String × Option String)) (name : String) (v : Value) :
    colTransform m name [] v = v := rfl

theorem colTransform_cons (m : List (String × Option String)) (name : String)
    (op : String × (Value → Value)) (ops : List (String × (Value → Value))) (v : Value) :
    colTransform m name (op :: ops) v
      = colTransform m name ops
          (if mappingGetTruthy m op.1 == some name then op.2 v else v) := rfl

theorem cleanStep_names (m : List (String × Option String)) (df d1 : DF)
    (op : String × (Value → Value)) (h : cleanStep m df op = some d1) (c : String) :
    d1.cols.any (fun q => q.1 == c) = df.cols.any (fun q => q.1 == c) := by
  cases htgt : mappingGetTruthy m op.1 with
  | none =>
    simp only [cleanStep, htgt] at h
    cases h
    rfl
  | some col =>
    simp only [cleanStep, htgt, applyToCol] at h
    by_cases hhas : df.cols.any (fun p => p.1 == col)
    · rw [if_pos hhas] at h
      cases h
      rw [List.any_map]
      refine congrArg df.cols.any ?_
      funext p
      by_cases hp : p.1 = col <;> simp [hp]
    · rw [if_neg hhas] at h
      cases h

theorem cleanRun_shape {m : List (String × Option String)} :
    ∀ (ops : List (String × (Value → Value))) (df df' : DF),
    ops.foldlM (cleanStep m) df = some df' →
    df'.nrows = df.nrows ∧
    df'.cols = df.cols.map (fun p => (p.1, p.2.map (colTransform m p.1 ops))) := by
  intro ops
  induction ops with
  | nil =>
    intro df df' h
    simp only [List.foldlM_nil] at h
    cases h
    refine ⟨rfl, ?_⟩
    conv_lhs => rw [show df.cols = df.cols.map id from (List.map_id df.cols).symm]
    refine List.map_congr_left (fun p _ => ?_)
    have hct : colTransform m p.1 [] = fun v => v := rfl
    rw [hct]
    show p = (p.1, p.2.map (fun v => v))
    rw [show p.2.map (fun v => v) = p.2 from List.map_id' p.2]
  | cons op ops ih =>
    intro df df' h
    rw [List.foldlM_cons] at h
    cases hstep : cleanStep m df op with
    | none => rw [hstep] at h; simp at h
    | some d1 =>
      rw [hstep] at h
      have h2 : ops.foldlM (cleanStep m) d1 = some df' := h
      obtain ⟨hn, hc⟩ := ih d1 df' h2
      cases htgt : mappingGetTruthy m op.1 with
      | none =>
        simp only [cleanStep, htgt] at hstep
        cases hstep
        refine ⟨hn, ?_⟩
        rw [hc]
        refine List.map_congr_left (fun p _ => ?_)
        refine congrArg (Prod.mk p.1) ?_
        refine congrArg (List.map · p.2) ?_
        funext v
        rw [colTransform_cons, htgt]
        rfl
      | some col =>
        simp only [cleanStep, htgt, applyToCol] at hstep
        by_cases hhas : df.cols.any (fun p => p.1 == col)
        · rw [if_pos hhas] at hstep
          cases hstep
          refine ⟨hn, ?_⟩
          rw [hc]
          simp only [List.map_map]
          refine List.map_congr_left (fun p _ => ?_)
          simp only [Function.comp_apply]
          by_cases hp : p.1 == col
          · have hp2 : p.1 = col := eq_of_beq hp
            subst hp2
            rw [if_pos hp]
            refine congrArg (Prod.mk p.1) ?_
            rw [List.map_map]
            refine congrArg (List.map · p.2) ?_
            funext v
            simp only [Function.comp_apply]
            rw [colTransform_cons, htgt]
            simp
          · rw [if_neg hp]
            refine congrArg (Prod.mk p.1) ?_
            refine congrArg (List.map · p.2) ?_
            funext v
            rw [colTransform_cons, htgt]
            have hne : (some col == some p.1) = false := by
              apply beq_eq_false_iff_ne.mpr
              intro hcol
              apply hp
              rw [Option.some.inj hcol]
              exact beq_self_eq_true p.1
            rw [hne]
            rfl
        · rw [if_neg hhas] at hstep
          cases hstep

theorem cleanRun_present {m : List (String × Option String)} :
    ∀ (ops : List (String × (Value → Value))) (df df' : DF),
    ops.foldlM (cleanStep m) df = some df' →
    ∀ p ∈ ops, ∀ c, mappingGetTruthy m p.1 = some c →
      df.cols.any (fun q => q.1 == c) = true := by
  intro ops
  induction ops with
  | nil => intro df df' _ p hp; cases hp
  | cons op ops ih =>
    intro df df' h p hp c htgt
    rw [List.foldlM_cons] at h
    cases hstep : cleanStep m df op with
    | none => rw [hstep] at h; simp at h
    | some d1 =>
      rw [hstep] at h
      have h2 : ops.foldlM (cleanStep m) d1 = some df' := h
      cases hp with
      | head =>
        simp only [cleanStep, htgt, applyToCol] at hstep
        by_cases hhas : df.cols.any (fun q => q.1 == c)
        · exact hhas
        · rw [if_neg hhas] at hstep; cases hstep
      | tail _ hmem =>
        have := ih d1 df' h2 p hmem c htgt
        rw [← cleanStep_names m df d1 op hstep c]
        exact this

theorem cleanRun_isSome {m : List (String × Option String)} :
    ∀ (ops : List (String × (Value → Value))) (df : DF),
    (∀ p ∈ ops, ∀ c, mappingGetTruthy m p.1 = some c →
      df.cols.any (fun q => q.1 == c) = true) →
    (ops.foldlM (cleanStep m) df).isSome := by
  intro ops
  induction ops with
  | nil => intro df _; rfl
  | cons op ops ih =>
    intro df hpres
    rw [List.foldlM_cons]
    cases htgt : mappingGetTruthy m op.1 with
    | none =>
      have hstep : cleanStep m df op = some df := by
        simp only [cleanStep, htgt]
      rw [hstep]
      exact ih df (fun p hp c hc => hpres p (List.mem_cons_of_mem op hp) c hc)
    | some col =>
      have hhas : df.cols.any (fun q => q.1 == col) = true :=
        hpres op (List.mem_cons_self op ops) col htgt
      have hstep : cleanStep m df op =
          some ⟨df.cols.map (fun p => if p.1 == col then (p.1, p.2.map op.2) else p),
            df.nrows⟩ := by
        simp only [cleanStep, htgt, applyToCol, hhas, if_pos]
      rw [hstep]
      apply ih
      intro p hp c hc
      rw [show (⟨df.cols.map (fun p => if p.1 == col then (p.1, p.2.map op.2) else p),
          df.nrows⟩ : DF).cols.any (fun q => q.1 == c)
          = df.cols.any (fun q => q.1 == c) from by
        rw [List.any_map]
        refine congrArg df.cols.any ?_
        funext q
        by_cases hq : q.1 = col <;> simp [hq]]
      exact hpres p (List.mem_cons_of_mem op hp) c hc

theorem colTransform_notin (m : List (String × Option String)) (name : String) :
    ∀ (ops : List (String × (Value → Value))),
    (∀ p ∈ ops, mappingGetTruthy m p.1 ≠ some name) →
    ∀ v, colTransform m name ops v = v := by
  intro ops
  induction ops with
  | nil => intro _ v; rfl
  | cons op ops ih =>
    intro h v
    rw [colTransform_cons]
    have hcond : (mappingGetTruthy m op.1 == some name) = false :=
      beq_eq_false_iff_ne.mpr (h op (List.mem_cons_self op ops))
    rw [hcond]
    exact ih (fun p hp => h p (List.mem_cons_of_mem op hp)) v

theorem colTransform_idem (m : List (String × Option String)) (name : String) :
    ∀ (ops : List (String × (Value → Value))),
    (∀ p ∈ ops, ∀ v, p.2 (p.2 v) = p.2 v) →
    (ops.filterMap (fun p => mappingGetTruthy m p.1)).Nodup →
    ∀ v, colTransform m name ops (colTransform m name ops v) = colTransform m name ops v := by
  intro ops
  induction ops with
  | nil => intro _ _ v; rfl
  | cons op ops ih =>
    intro hops hnd v
    cases htgt : mappingGetTruthy m op.1 with
    | none =>
      have hnd2 : (ops.filterMap (fun p => mappingGetTruthy m p.1)).Nodup := by
        rw [List.filterMap_cons, htgt] at hnd
        exact hnd
      have hskip : ∀ w, colTransform m name (op :: ops) w = colTransform m name ops w := by
        intro w
        rw [colTransform_cons, htgt]
        rfl
      simp only [hskip]
      exact ih (fun p hp w => hops p (List.mem_cons_of_mem op hp) w) hnd2 v
    | some c =>
      have hndc : (c :: ops.filterMap (fun p => mappingGetTruthy m p.1)).Nodup := by
        rw [List.filterMap_cons, htgt] at hnd
        exact hnd
      by_cases hname : c = name
      · subst hname
        have hnotin : ∀ p ∈ ops, mappingGetTruthy m p.1 ≠ some c := by
          intro p hp heq
          have hmem : c ∈ ops.filterMap (fun p => mappingGetTruthy m p.1) :=
            List.mem_filterMap.mpr ⟨p, hp, heq⟩
          exact (List.nodup_cons.mp hndc).1 hmem
        have hskip2 : ∀ w, colTransform m c (op :: ops) w = op.2 w := by
          intro w
          rw [colTransform_cons, htgt, if_pos (beq_self_eq_true (some c))]
          exact colTransform_notin m c ops hnotin (op.2 w)
        simp only [hskip2]
        exact hops op (List.mem_cons_self op ops) v
      · have hcond : (some c == some name) = false := by
          apply beq_eq_false_iff_ne.mpr
          intro hsome
          exact hname (Option.some.inj hsome)
        have hskip : ∀ w, colTransform m name (op :: ops) w = colTransform m name ops w := by
          intro w
          rw [colTransform_cons, htgt, hcond]
          rfl
        simp only [hskip]
        exact ih (fun p hp w => hops p (List.mem_cons_of_mem op hp) w)
          (List.Nodup.of_cons hndc) v

theorem DF.ext2 {a b : DF} (h1 : a.cols = b.cols) (h2 : a.nrows = b.nrows) : a = b := by
  cases a
  cases b
  cases h1
  cases h2
  rfl

/- ## Claim C3 -/

/-- Counterexample to claim C3 as stated for every mapping: when the mapping
sends two fields with different cleaners (here carrier and cost) to the same
column, cleaning is not idempotent.  On a one-row table whose column `X`
holds the string `"25.5"`, the first clean produces the number `25.5` (the
cost step runs after the carrier step), but a second clean turns it into null
(the carrier step's `.str` accessor nullifies a non-string; in pandas the
second pass raises `AttributeError` on the now-numeric column — either way
re-cleaning does not leave the data unchanged). -/
theorem claim_C3_counterexample :
    clean_column_data ⟨[("X", [Value.vstr "25.5"])], 1⟩
        [("carrier", some "X"), ("cost", some "X")]
      = some ⟨[("X", [Value.vnum (mkRat 51 2)])], 1⟩ ∧
    clean_column_data ⟨[("X", [Value.vnum (mkRat 51 2)])], 1⟩
        [("carrier", some "X"), ("cost", some "X")]
      = some ⟨[("X", [Value.vnull])], 1⟩ ∧
    some (⟨[("X", [Value.vnull])], 1⟩ : DF) ≠ some ⟨[("X", [Value.vnum (mkRat 51 2)])], 1⟩ := by
  refine ⟨?_, ?_, ?_⟩ <;> decide

/-- Claim C3 (amended): the data cleaner is idempotent for every table and
every column mapping that sends the eight cleaned fields (carrier, status,
origin, destination, weight, cost, date, delivery_date) to pairwise distinct
columns: re-applying the per-field normalizations to already-cleaned data
yields no further change. -/
theorem claim_C3_amended (T : DF) (M : List (String × Option String)) (T1 : DF)
    (hnd : (cleanOps.filterMap (fun p => mappingGetTruthy M p.1)).Nodup)
    (h1 : clean_column_data T M = some T1) :
    clean_column_data T1 M = some T1 := by
  obtain ⟨hn, hc⟩ := cleanRun_shape cleanOps T T1 h1
  have hpres : ∀ p ∈ cleanOps, ∀ c, mappingGetTruthy M p.1 = some c →
      T1.cols.any (fun q => q.1 == c) = true := by
    intro p hp c htgt
    have hT := cleanRun_present cleanOps T T1 h1 p hp c htgt
    rw [hc, List.any_map]
    exact hT
  have h2 := cleanRun_isSome cleanOps T1 hpres
  obtain ⟨T2, hT2⟩ := Option.isSome_iff_exists.mp h2
  obtain ⟨hn2, hc2⟩ := cleanRun_shape cleanOps T1 T2 hT2
  have hcols : T2.cols = T1.cols := by
    rw [hc2, hc, List.map_map]
    refine List.map_congr_left (fun p _ => ?_)
    simp only [Function.comp_apply]
    refine congrArg (Prod.mk p.1) ?_
    rw [List.map_map]
    refine List.map_congr_left (fun v _ => ?_)
    simp only [Function.comp_apply]
    exact colTransform_idem M p.1 cleanOps cleanOps_idem hnd v
  have hT2T1 : T2 = T1 := DF.ext2 hcols hn2
  rw [hT2T1] at hT2
  exact hT2

/-- Witness for the amended claim C3 at a concrete table and a mapping with
distinct targets. -/
theorem claim_C3_witness :
    clean_column_data ⟨[("Carrier", [Value.vstr " acme corp "])], 1⟩
        [("carrier", some "Carrier")]
      = some ⟨[("Carrier", [Value.vstr "Acme Corp"])], 1⟩ ∧
    clean_column_data ⟨[("Carrier", [Value.vstr "Acme Corp"])], 1⟩
        [("carrier", some "Carrier")]
      = some ⟨[("Carrier", [Value.vstr "Acme Corp"])], 1⟩ :=
  ⟨by decide,
   claim_C3_amended ⟨[("Carrier", [Value.vstr " acme corp "])], 1⟩
     [("carrier", some "Carrier")] ⟨[("Carrier", [Value.vstr "Acme Corp"])], 1⟩
     (by decide) (by decide)⟩

/- ## Claim C10 -/

/-- Claim C10: the data cleaner preserves the row count, the column set and
its order, and leaves every column untouched that the mapping does not
designate as one of the eight cleaned fields (carrier, status, origin,
destination, weight, cost, date, delivery_date); only mapped columns of those
fields may change. -/
theorem claim_C10 (T : DF) (M : List (String × Option String)) (T1 : DF)
    (h1 : clean_column_data T M = some T1) :
    T1.nrows = T.nrows ∧
    T1.cols.map (fun p => p.1) = T.cols.map (fun p => p.1) ∧
    ∀ i p, T.cols.get? i = some p →
      (∀ op ∈ cleanOps, mappingGetTruthy M op.1 ≠ some p.1) →
      T1.cols.get? i = some p := by
  obtain ⟨hn, hc⟩ := cleanRun_shape cleanOps T T1 h1
  refine ⟨hn, ?_, ?_⟩
  · rw [hc, List.map_map]
    rfl
  · intro i p hget hnot
    rw [hc, List.get?_map, hget]
    simp only [Option.map_some']
    refine congrArg some ?_
    have hid : colTransform M p.1 cleanOps = fun v => v :=
      funext (colTransform_notin M p.1 cleanOps hnot)
    rw [hid, List.map_id']

/-- Witness for claim C10: cleaning a table with an unmapped extra column
leaves that column byte-for-byte identical. -/
theorem claim_C10_witness :
    clean_column_data ⟨[("Notes", [Value.vstr " keep me "]),
        ("Carrier", [Value.vstr " acme "])], 1⟩ [("carrier", some "Carrier")]
      = some ⟨[("Notes", [Value.vstr " keep me "]),
        ("Carrier", [Value.vstr "Acme"])], 1⟩ ∧
    (⟨[("Notes", [Value.vstr " keep me "]), ("Carrier", [Value.vstr "Acme"])], 1⟩ : DF).nrows
      = (⟨[("Notes", [Value.vstr " keep me "]),
        ("Carrier", [Value.vstr " acme "])], 1⟩ : DF).nrows ∧
    (⟨[("Notes", [Value.vstr " keep me "]), ("Carrier", [Value.vstr "Acme"])], 1⟩ : DF).cols.get? 0
      = some ("Notes", [Value.vstr " keep me "]) := by
  refine ⟨by decide, ?_, ?_⟩
  · exact (claim_C10 ⟨[("Notes", [Value.vstr " keep me "]),
        ("Carrier", [Value.vstr " acme "])], 1⟩ [("carrier", some "Carrier")]
      ⟨[("Notes", [Value.vstr " keep me "]), ("Carrier", [Value.vstr "Acme"])], 1⟩
      (by decide)).1
  · exact (claim_C10 ⟨[("Notes", [Value.vstr " keep me "]),
        ("Carrier", [Value.vstr " acme "])], 1⟩ [("carrier", some "Carrier")]
      ⟨[("Notes", [Value.vstr " keep me "]), ("Carrier", [Value.vstr "Acme"])], 1⟩
      (by decide)).2.2
      0 ("Notes", [Value.vstr " keep me "]) (by decide) (by decide)

/- ## Exact rational helpers for the statistics engine

pandas aggregates concrete float columns; the claims only exercise exact
decimal values, so the embedding computes with exact rationals.  The
operations are written via `mkRat` and `num`/`den` so that concrete instances
evaluate inside the kernel. -/

/-- Exact rational addition. -/
def qAdd (a b : ℚ) : ℚ := mkRat (a.num * b.den + b.num * a.den) (a.den * b.den)

/-- Exact rational division (used only with a nonzero divisor). -/
def qDiv (a b : ℚ) : ℚ := mkRat (a.num * b.den * b.num.sign) (a.den * b.num.natAbs)

/-- The non-null numeric values of a column (pandas aggregates skip NaN). -/
def numericValues (vs : List Value) : List ℚ :=
  vs.filterMap (fun v => match v with | .vnum q => some q | _ => none)

/-- Column sum, pandas `Series.sum()` (0 on an all-null column). -/
def qsum (l : List ℚ) : ℚ := l.foldl qAdd (mkRat 0 1)

/-- Column mean, pandas `Series.mean()` over the non-null entries (the claims
never take the mean of an empty column, where pandas yields NaN). -/
def qmean (l : List ℚ) : ℚ := qDiv (qsum l) (mkRat l.length 1)

/-- Column minimum (the claims never take it on an empty column). -/
def qmin : List ℚ → ℚ
  | [] => mkRat 0 1
  | x :: xs => xs.foldl (fun a b => if b < a then b else a) x

/-- Column maximum (the claims never take it on an empty column). -/
def qmax : List ℚ → ℚ
  | [] => mkRat 0 1
  | x :: xs => xs.foldl (fun a b => if a < b then b else a) x

/-- pandas `is_numeric_dtype`: the column is modelled as numeric when every
entry is a number or null (a float64 column with NaNs). -/
def isNumericCol (vs : List Value) : Bool :=
  vs.all (fun v => match v with | .vnum _ => true | .vnull => true | _ => false)

/- ## Rendering helpers for the answer strings -/

/-- Round `num / den` (with `den > 0`) to the nearest integer, ties to even —
the rounding Python's fixed-point format applies to these exact values. -/
def roundHalfEven (num den : Int) : Int :=
  let q := Int.fdiv num den
  let r := num - q * den
  if 2 * r < den then q
  else if den < 2 * r then q + 1
  else if q % 2 = 0 then q else q + 1

/-- Insert thousands separators into a digit string (most significant digit
first), as Python's `,` format flag does. -/
def group3 : List Char → List Char
  | [] => []
  | [a] => [a]
  | [a, b] => [a, b]
  | [a, b, c] => [a, b, c]
  | a :: b :: c :: rest => a :: b :: c :: ',' :: group3 rest

/-- Left-pad a digit string with zeros to the given width. -/
def padZeros (cs : List Char) (k : Nat) : List Char :=
  List.replicate (k - cs.length) '0' ++ cs

/-- Python `format(x, ".Df")` / `format(x, ",.Df")` on an exact value:
fixed-point with `decimals` fraction digits, optionally comma-grouped. -/
def fmtFixed (q : ℚ) (decimals : Nat) (comma : Bool) : String :=
  let scaled := roundHalfEven (q.num * ((10 : Int) ^ decimals)) q.den
  let a := scaled.natAbs
  let ip := a / 10 ^ decimals
  let fp := a % 10 ^ decimals
  let ipStr := if comma then (group3 (toString ip).data.reverse).reverse
    else (toString ip).data
  let core := if decimals == 0 then ipStr
    else ipStr ++ '.' :: padZeros (toString fp).data decimals
  ⟨if scaled < 0 then '-' :: core else core⟩

/-- The percentage annotation `(count / len(df)) * 100` rendered with
`"{:.1f}"`. -/
def fmtPct (count total : Nat) : String := fmtFixed (mkRat (count * 100) total) 1 false

/-- Python `str(value)` for a manifest cell, as `astype(str)` and f-strings
render it: strings unchanged, dates in ISO form, NaN as `"nan"`.  Whole
numbers render with a trailing `.0` like floats; other numerics are not
exercised by any claim. -/
def valueAsString : Value → String
  | .vstr s => s
  | .vnum q => if q.den == 1 then toString q.num ++ ".0"
      else toString q.num ++ "/" ++ toString q.den
  | .vdate d =>
      ⟨(toString d.year).data ++ '-' :: (padZeros (toString d.month).data 2)
        ++ '-' :: (padZeros (toString d.day).data 2)⟩
  | .vnull => "nan"

/-- Python's `strftime("%Y-%m-%d")`. -/
def fmtYMD (d : Date) : String :=
  ⟨(toString d.year).data ++ '-' :: (padZeros (toString d.month).data 2)
    ++ '-' :: (padZeros (toString d.day).data 2)⟩

/-- Python's `strftime("%m/%d/%Y")`. -/
def fmtMDY (d : Date) : String :=
  ⟨(padZeros (toString d.month).data 2) ++ '/' :: (padZeros (toString d.day).data 2)
    ++ '/' :: (toString d.year).data⟩

/-- Python's `strftime("%d/%m/%Y")`. -/
def fmtDMY (d : Date) : String :=
  ⟨(padZeros (toString d.day).data 2) ++ '/' :: (padZeros (toString d.month).data 2)
    ++ '/' :: (toString d.year).data⟩

/-- Python `", ".join(...)`. -/
def joinComma (l : List String) : String := String.intercalate ", " l

/-- pandas `value_counts` tallying: counts of the non-null values in
first-appearance order. -/
def vcInsert (x : Value) : List (Value × Nat) → List (Value × Nat)
  | [] => [(x, 1)]
  | (v, k) :: rest => if v == x then (v, k + 1) :: rest else (v, k) :: vcInsert x rest

/-- Stable insertion keeping counts descending (Python's stable sort with
`reverse`/descending key; ties keep first-appearance order). -/
def insDescNat (a : Value × Nat) : List (Value × Nat) → List (Value × Nat)
  | [] => [a]
  | b :: t => if b.2 < a.2 then a :: b :: t else b :: insDescNat a t

/-- pandas `Series.value_counts()`: non-null value tallies sorted by count
descending (stable on ties). -/
def value_counts (vs : List Value) : List (Value × Nat) :=
  (vs.foldl (fun acc v => match v with | .vnull => acc | _ => vcInsert v acc) []).foldl
    (fun acc a => insDescNat a acc) []

/-- Number of `true` entries of a boolean mask (pandas `mask.sum()`). -/
def countTrue (l : List Bool) : Nat := l.count true

/-- pandas boolean-mask selection `series[mask]` (rows are aligned
positionally). -/
def selectMask (xs : List Value) (mask : List Bool) : List Value :=
  (xs.zip mask).filterMap (fun p => if p.2 then some p.1 else none)

/-- pandas `series.str.lower().str.contains(needle, na=False)` elementwise:
true only for string cells whose lower-cased form contains the needle. -/
def strMaskContains (v : Value) (needle : String) : Bool :=
  match v with
  | .vstr s => strContains (pyLower s) needle
  | _ => false

/- ## `tabs/llm_query_tab.py`: column lookup and question patterns -/

/-- The `find_column_case_insensitive` function from `tabs/llm_query_tab.py`:
builds `{col.lower(): col}` (a later duplicate key overwrites an earlier one,
hence the last matching column wins) and returns the first target whose
lower-cased form is a key. -/
def find_column_case_insensitive (cols : List String) (target_names : List String) :
    Option String :=
  target_names.findSome? (fun t =>
    (cols.filter (fun c => pyLower c == pyLower t)).getLast?)

/-- The column names of a DataFrame (`df.columns`). -/
def dfColumnNames (df : DF) : List String := df.cols.map (fun p => p.1)

/-- Column access `df[name]` (first column with that exact name). -/
def dfGet (df : DF) (name : String) : List Value :=
  ((df.cols.find? (fun p => p.1 == name)).map (fun p => p.2)).getD []

/-- The `get_column_data` function from `tabs/llm_query_tab.py`. -/
def get_column_data (df : DF) (column_patterns : List String) :
    Option (String × List Value) :=
  (find_column_case_insensitive (dfColumnNames df) column_patterns).map
    (fun n => (n, dfGet df n))

/- Column patterns of `analyze_question_directly`. -/

def status_patterns : List String :=
  ["status", "shipment_status", "delivery_status", "ship_status"]

def carrier_patterns : List String :=
  ["carrier", "carrier_name", "shipping_company", "shipper"]

def cost_patterns : List String :=
  ["cost", "price", "amount", "shipping_cost", "total_cost"]

def origin_patterns : List String :=
  ["origin", "from", "source", "pickup", "origin_city"]

def destination_patterns : List String :=
  ["destination", "to", "dest", "delivery", "destination_city"]

def shipment_id_patterns : List String :=
  ["shipment_id", "shipmentid", "id", "shipment id", "tracking", "reference"]

def weight_patterns : List String :=
  ["weight", "total_weight", "gross_weight", "net_weight"]

def priority_patterns : List String :=
  ["priority", "priority_level", "urgency", "service_level"]

def delivery_date_patterns : List String :=
  ["delivery_date", "delivery date", "expected_arrival", "expected arrival", "arrival_date"]

/- Question keyword sets of `analyze_question_directly`, in source order. -/

def totalPhrases : List String := ["total number", "how many shipments", "total shipments"]

def carrierPhrases : List String := ["carrier has most", "carrier with most", "top carrier"]

def statusDistPhrases : List String :=
  ["status distribution", "breakdown", "status breakdown",
   "distribution of shipment statuses", "distribution of status",
   "what is the distribution", "shipment statuses"]

def costPhrases : List String :=
  ["average cost", "total cost", "cost analysis", "shipping cost",
   "average shipping cost", "what is the average"]

def originPhrases : List String := ["origins", "origin", "outgoing"]

def destinationPhrases : List String := ["destination", "popular destination"]

def priorityPhrases : List String :=
  ["priority", "high priority", "high-priority", "are there any high"]

def deliveryTodayPhrases : List String :=
  ["delivery today", "scheduled for delivery today", "delivering today",
   "scheduled today", "today delivery"]

/-- Python `any(phrase in question_lower for phrase in phrases)`. -/
def anyContains (hay : String) (phrases : List String) : Bool :=
  phrases.any (fun p => strContains hay p)

/-- The handlers of `analyze_question_directly`, one per `if`/`elif` branch,
in source order. -/
inductive Handler where
  | total | carrier | statusDist | cost | origin | destination
  | weight | priority | deliveryToday
deriving DecidableEq

/-- The branch-selection of `analyze_question_directly`: the lower-cased
question is tested against the keyword predicates in source order,
first match wins; `none` falls through to the LLM. -/
def routeQuestion (question : String) : Option Handler :=
  let ql := pyLower question
  if anyContains ql totalPhrases then some .total
  else if anyContains ql carrierPhrases then some .carrier
  else if anyContains ql statusDistPhrases then some .statusDist
  else if anyContains ql costPhrases then some .cost
  else if anyContains ql originPhrases then some .origin
  else if anyContains ql destinationPhrases then some .destination
  else if strContains ql "weight" then some .weight
  else if anyContains ql priorityPhrases then some .priority
  else if anyContains ql deliveryTodayPhrases then some .deliveryToday
  else none

/- ## Handler bodies of `analyze_question_directly` -/

/-- Diagnostic for an unresolvable column: names the field and lists all
column names (source f-string `"... column not found. Available columns:
{', '.join(df.columns)}"`). -/
def notFoundDiag (field : String) (cols : List String) : String :=
  field ++ " column not found. Available columns: " ++ joinComma cols

/-- Diagnostic for a column that is unresolvable or non-numeric. -/
def notFoundNumDiag (field : String) (cols : List String) : String :=
  field ++ " column not found or not numeric. Available columns: " ++ joinComma cols

/-- The total-shipments branch, including the nested delayed/pending
analysis. -/
def totalAnswer (df : DF) (ql : String) : String :=
  if strContains ql "delayed" || strContains ql "pending" then
    match get_column_data df status_patterns with
    | none => notFoundDiag "Status" (dfColumnNames df)
    | some (_, statusData) =>
      let idData := get_column_data df shipment_id_patterns
      let delayedMask := statusData.map (fun v => strMaskContains v "delay")
      let pendingMask := statusData.map (fun v => strMaskContains v "pending")
      let delayedCount := countTrue delayedMask
      let pendingCount := countTrue pendingMask
      "**Delayed and Pending Shipments Analysis:**\n\n"
        ++ "• **Delayed shipments:** " ++ toString delayedCount ++ "\n"
        ++ (if delayedCount > 0 then
              match idData with
              | some (_, ids) => "  - Shipment IDs: "
                  ++ joinComma ((selectMask ids delayedMask).map valueAsString) ++ "\n"
              | none => ""
            else "")
        ++ "• **Pending shipments:** " ++ toString pendingCount ++ "\n"
        ++ (if pendingCount > 0 then
              match idData with
              | some (_, ids) => "  - Shipment IDs: "
                  ++ joinComma ((selectMask ids pendingMask).map valueAsString) ++ "\n"
              | none => ""
            else "")
        ++ "\n**Total delayed + pending:** " ++ toString (delayedCount + pendingCount)
        ++ " out of " ++ toString df.nrows ++ " total shipments"
        ++ "\n\n**Actual Status Breakdown:**\n"
        ++ String.join ((value_counts statusData).map (fun p =>
            "• " ++ valueAsString p.1 ++ ": " ++ toString p.2 ++ " shipments\n"))
  else
    "**Total shipments:** " ++ toString df.nrows

/-- The carrier-leader branch. -/
def carrierAnswer (df : DF) : String :=
  match get_column_data df carrier_patterns with
  | none => notFoundDiag "Carrier" (dfColumnNames df)
  | some (_, carrierData) =>
    let counts := value_counts carrierData
    let top := counts.headD (Value.vnull, 0)
    "**Carrier Analysis:**\n\n🏆 **Top carrier:** " ++ valueAsString top.1
      ++ " with " ++ toString top.2 ++ " shipments\n\n**Complete breakdown:**\n"
      ++ String.join (counts.map (fun p =>
          "• " ++ valueAsString p.1 ++ ": " ++ toString p.2 ++ " shipments ("
            ++ fmtPct p.2 df.nrows ++ "%)\n"))

/-- The status-distribution branch. -/
def statusDistAnswer (df : DF) : String :=
  match get_column_data df status_patterns with
  | none => notFoundDiag "Status" (dfColumnNames df)
  | some (_, statusData) =>
    "**Status Distribution:**\n\n"
      ++ String.join ((value_counts statusData).map (fun p =>
          "• **" ++ valueAsString p.1 ++ ":** " ++ toString p.2 ++ " shipments ("
            ++ fmtPct p.2 df.nrows ++ "%)\n"))
      ++ "\n**Total shipments:** " ++ toString df.nrows

/-- The cost-analysis branch. -/
def costAnswer (df : DF) : String :=
  match get_column_data df cost_patterns with
  | some (_, costData) =>
    if isNumericCol costData then
      let nums := numericValues costData
      "**Cost Analysis:**\n\n• **Total cost:** $" ++ fmtFixed (qsum nums) 2 true ++ "\n"
        ++ "• **Average cost:** $" ++ fmtFixed (qmean nums) 2 false ++ "\n"
        ++ "• **Cost range:** $" ++ fmtFixed (qmin nums) 2 false
        ++ " - $" ++ fmtFixed (qmax nums) 2 false ++ "\n"
        ++ "• **Number of shipments:** " ++ toString df.nrows
    else notFoundNumDiag "Cost" (dfColumnNames df)
  | none => notFoundNumDiag "Cost" (dfColumnNames df)

/-- The origin-analysis branch. -/
def originAnswer (df : DF) : String :=
  match get_column_data df origin_patterns with
  | none => notFoundDiag "Origin" (dfColumnNames df)
  | some (_, originData) =>
    let counts := value_counts originData
    let top := counts.headD (Value.vnull, 0)
    "**Origin Analysis:**\n\n🏆 **Top origin:** " ++ valueAsString top.1
      ++ " with " ++ toString top.2 ++ " shipments\n\n**All origins:**\n"
      ++ String.join (counts.map (fun p =>
          "• " ++ valueAsString p.1 ++ ": " ++ toString p.2 ++ " shipments ("
            ++ fmtPct p.2 df.nrows ++ "%)\n"))

/-- The destination-analysis branch. -/
def destinationAnswer (df : DF) : String :=
  match get_column_data df destination_patterns with
  | none => notFoundDiag "Destination" (dfColumnNames df)
  | some (_, destData) =>
    let counts := value_counts destData
    let top := counts.headD (Value.vnull, 0)
    "**Destination Analysis:**\n\n🏆 **Top destination:** " ++ valueAsString top.1
      ++ " with " ++ toString top.2 ++ " shipments\n\n**All destinations:**\n"
      ++ String.join (counts.map (fun p =>
          "• " ++ valueAsString p.1 ++ ": " ++ toString p.2 ++ " shipments ("
            ++ fmtPct p.2 df.nrows ++ "%)\n"))

/-- The weight-analysis branch. -/
def weightAnswer (df : DF) : String :=
  match get_column_data df weight_patterns with
  | some (_, weightData) =>
    if isNumericCol weightData then
      let nums := numericValues weightData
      "**Weight Analysis:**\n\n• **Total weight:** " ++ fmtFixed (qsum nums) 2 true
        ++ "\n• **Average weight:** " ++ fmtFixed (qmean nums) 2 false
    else notFoundNumDiag "Weight" (dfColumnNames df)
  | none => notFoundNumDiag "Weight" (dfColumnNames df)

/-- The high-priority branch. -/
def priorityAnswer (df : DF) : String :=
  match get_column_data df priority_patterns with
  | none => notFoundDiag "Priority" (dfColumnNames df)
  | some (_, priorityData) =>
    let idData := get_column_data df shipment_id_patterns
    let mask := priorityData.map (fun v => strMaskContains v "high")
    let cnt := countTrue mask
    "**High Priority Shipments:** " ++ toString cnt ++ " out of "
      ++ toString df.nrows ++ " total shipments\n\n"
      ++ (if cnt > 0 then
            match idData with
            | some (_, ids) => "**High Priority Shipment IDs:**\n"
                ++ String.join ((selectMask ids mask).map
                    (fun v => "• " ++ valueAsString v ++ "\n"))
            | none => "Shipment ID column not found to list specific shipments."
          else "")

/-- The mask of the delivery-today branch: the string form of each cell is
tested against today in the three literal formats plus the literal substring
"today" (lower-cased), with `na=False`. -/
def deliveryTodayMask (vs : List Value) (today : Date) : List Bool :=
  vs.map (fun v =>
    strContains (valueAsString v) (fmtYMD today)
    || strContains (valueAsString v) (fmtMDY today)
    || strContains (valueAsString v) (fmtDMY today)
    || strContains (pyLower (valueAsString v)) "today")

/-- The delivery-today branch.  The source reads the clock
(`datetime.now()`); the embedding takes today's date as an explicit
parameter. -/
def deliveryTodayAnswer (df : DF) (today : Date) : String :=
  match get_column_data df delivery_date_patterns with
  | none => notFoundDiag "Delivery date" (dfColumnNames df)
  | some (_, ddData) =>
    let idData := get_column_data df shipment_id_patterns
    let mask := deliveryTodayMask ddData today
    let cnt := countTrue mask
    "**Shipments Scheduled for Delivery Today:** " ++ toString cnt ++ " out of "
      ++ toString df.nrows ++ " total shipments\n\n"
      ++ (if cnt > 0 then
            match idData with
            | some (_, ids) => "**Today\x27s Deliveries:**\n"
                ++ String.join ((selectMask ids mask).map
                    (fun v => "• " ++ valueAsString v ++ "\n"))
            | none => "Shipment ID column not found to list specific shipments."
          else "**Today\x27s date:** " ++ fmtYMD today
            ++ "\nNo shipments scheduled for delivery today.")

/-- Dispatch of a routed question to its handler body. -/
def runHandler (h : Handler) (df : DF) (ql : String) (today : Date) : String :=
  match h with
  | .total => totalAnswer df ql
  | .carrier => carrierAnswer df
  | .statusDist => statusDistAnswer df
  | .cost => costAnswer df
  | .origin => originAnswer df
  | .destination => destinationAnswer df
  | .weight => weightAnswer df
  | .priority => priorityAnswer df
  | .deliveryToday => deliveryTodayAnswer df today

/-- The `analyze_question_directly` function from `tabs/llm_query_tab.py`:
the `if`/`elif` chain is factored into the route (`routeQuestion`, the
branch conditions in source order) and the branch bodies (`runHandler`);
`none` models the final `return None` (fall back to the LLM).  The clock
read `datetime.now()` is passed as the `today` parameter. -/
def analyze_question_directly (df : DF) (question : String) (today : Date) :
    Option String :=
  (routeQuestion question).map (fun h => runHandler h df (pyLower question) today)

/- ## Substring lemmas for the diagnostic strings -/

theorem startsWithCL_append (a b : List Char) : startsWithCL (a ++ b) a = true := by
  induction a with
  | nil => simp [startsWithCL]
  | cons c cs ih => simp [startsWithCL, ih]

theorem startsWithCL_refl (l : List Char) : startsWithCL l l = true := by
  have h := startsWithCL_append l []
  simpa using h

theorem hasSubCL_of_startsWith {l p : List Char} (h : startsWithCL l p = true) :
    hasSubCL l p = true := by
  cases l with
  | nil =>
    cases p with
    | nil => rfl
    | cons _ _ => exact absurd h (by simp [startsWithCL])
  | cons c cs => simp [hasSubCL, h]

theorem hasSubCL_append_left (l r p : List Char) (h : hasSubCL r p = true) :
    hasSubCL (l ++ r) p = true := by
  induction l with
  | nil => simpa using h
  | cons c cs ih => simp [hasSubCL, ih]

theorem strAppend_assoc (a b c : String) : (a ++ b) ++ c = a ++ (b ++ c) := by
  show String.mk ((a.data ++ b.data) ++ c.data) = String.mk (a.data ++ (b.data ++ c.data))
  rw [List.append_assoc]

theorem strContains_left (x y : String) : strContains (x ++ y) x = true := by
  unfold strContains
  exact hasSubCL_of_startsWith (startsWithCL_append x.data y.data)

theorem strContains_right (x y : String) : strContains (x ++ y) y = true := by
  unfold strContains
  exact hasSubCL_append_left x.data y.data y.data
    (hasSubCL_of_startsWith (startsWithCL_refl y.data))

theorem notFoundDiag_names (field : String) (cols : List String) :
    strContains (notFoundDiag field cols) field = true ∧
    strContains (notFoundDiag field cols) (joinComma cols) = true := by
  constructor
  · unfold notFoundDiag
    rw [strAppend_assoc]
    exact strContains_left field _
  · exact strContains_right _ (joinComma cols)

theorem notFoundNumDiag_names (field : String) (cols : List String) :
    strContains (notFoundNumDiag field cols) field = true ∧
    strContains (notFoundNumDiag field cols) (joinComma cols) = true := by
  constructor
  · unfold notFoundNumDiag
    rw [strAppend_assoc]
    exact strContains_left field _
  · exact strContains_right _ (joinComma cols)

/- ## Claim C2 -/

/-- The dispatch as the spec words it: an explicit ordered list of
(handler, predicate) pairs evaluated top-down with first-match-wins
semantics. -/
def dispatchTable : List (Handler × (String → Bool)) :=
  [ (.total, fun ql => anyContains ql totalPhrases),
    (.carrier, fun ql => anyContains ql carrierPhrases),
    (.statusDist, fun ql => anyContains ql statusDistPhrases),
    (.cost, fun ql => anyContains ql costPhrases),
    (.origin, fun ql => anyContains ql originPhrases),
    (.destination, fun ql => anyContains ql destinationPhrases),
    (.weight, fun ql => strContains ql "weight"),
    (.priority, fun ql => anyContains ql priorityPhrases),
    (.deliveryToday, fun ql => anyContains ql deliveryTodayPhrases) ]

/-- First-match-wins evaluation of the dispatch table. -/
def routeSpec (question : String) : Option Handler :=
  (dispatchTable.find? (fun p => p.2 (pyLower question))).map (fun p => p.1)

/-- Counterexample to claim C2: the generic total-shipments predicate is
tested first and the delivery-today predicate last, so the question
"How many shipments are delivering today?" — which matches both — is routed
to the generic total handler, not to the more specific delivery-today
handler. -/
theorem claim_C2_counterexample :
    anyContains (pyLower "How many shipments are delivering today?") totalPhrases = true ∧
    anyContains (pyLower "How many shipments are delivering today?") deliveryTodayPhrases
      = true ∧
    routeQuestion "How many shipments are delivering today?" = some Handler.total ∧
    Handler.total ≠ Handler.deliveryToday := by
  refine ⟨?_, ?_, ?_, ?_⟩ <;> decide

/-- Claim C2 (amended): the direct statistical query engine dispatches the
lowercased question through a fixed, priority-ordered sequence of keyword
predicates with first-match-wins semantics — the source-fixed order total,
carrier, status-distribution, cost, origin, destination, weight, priority,
delivery-today.  The generic total-shipments predicate is tested before the
delivery-today predicate, so a question matching both is routed to the
generic total handler (the delayed/pending refinement is a nested check
inside the total handler, not a predicate of the dispatch chain). -/
theorem claim_C2_amended :
    (∀ q, routeQuestion q = routeSpec q) ∧
    routeQuestion "How many shipments are delivering today?" = some Handler.total := by
  constructor
  · intro q
    by_cases h1 : anyContains (pyLower q) totalPhrases = true
    · simp [routeQuestion, routeSpec, dispatchTable, List.find?, h1]
    · by_cases h2 : anyContains (pyLower q) carrierPhrases = true
      · simp [routeQuestion, routeSpec, dispatchTable, List.find?, h1, h2]
      · by_cases h3 : anyContains (pyLower q) statusDistPhrases = true
        · simp [routeQuestion, routeSpec, dispatchTable, List.find?, h1, h2, h3]
        · by_cases h4 : anyContains (pyLower q) costPhrases = true
          · simp [routeQuestion, routeSpec, dispatchTable, List.find?, h1, h2, h3, h4]
          · by_cases h5 : anyContains (pyLower q) originPhrases = true
            · simp [routeQuestion, routeSpec, dispatchTable, List.find?, h1, h2, h3, h4, h5]
            · by_cases h6 : anyContains (pyLower q) destinationPhrases = true
              · simp [routeQuestion, routeSpec, dispatchTable, List.find?,
                  h1, h2, h3, h4, h5, h6]
              · by_cases h7 : strContains (pyLower q) "weight" = true
                · simp [routeQuestion, routeSpec, dispatchTable, List.find?,
                    h1, h2, h3, h4, h5, h6, h7]
                · by_cases h8 : anyContains (pyLower q) priorityPhrases = true
                  · simp [routeQuestion, routeSpec, dispatchTable, List.find?,
                      h1, h2, h3, h4, h5, h6, h7, h8]
                  · by_cases h9 : anyContains (pyLower q) deliveryTodayPhrases = true
                    · simp [routeQuestion, routeSpec, dispatchTable, List.find?,
                        h1, h2, h3, h4, h5, h6, h7, h8, h9]
                    · simp [routeQuestion, routeSpec, dispatchTable, List.find?,
                        h1, h2, h3, h4, h5, h6, h7, h8, h9]
  · decide

/- ## Claim C4 -/

/-- Claim C4: for every manifest and every question routed to a handler whose
required column cannot be resolved, the engine returns a normal string (the
embedded function is total — no exception path exists), and that string is
the diagnostic naming the missing field and listing all of the manifest's
column names.  The cost and weight branches use the "not found or not
numeric" wording; the total branch needs a column only for its nested
delayed/pending analysis. -/
theorem claim_C4 (df : DF) (q : String) (today : Date) (h : Handler)
    (hroute : routeQuestion q = some h) :
    analyze_question_directly df q today = some (runHandler h df (pyLower q) today) ∧
    (h = Handler.total →
      (strContains (pyLower q) "delayed" || strContains (pyLower q) "pending") = true →
      get_column_data df status_patterns = none →
      runHandler h df (pyLower q) today = notFoundDiag "Status" (dfColumnNames df)) ∧
    (h = Handler.carrier → get_column_data df carrier_patterns = none →
      runHandler h df (pyLower q) today = notFoundDiag "Carrier" (dfColumnNames df)) ∧
    (h = Handler.statusDist → get_column_data df status_patterns = none →
      runHandler h df (pyLower q) today = notFoundDiag "Status" (dfColumnNames df)) ∧
    (h = Handler.cost → get_column_data df cost_patterns = none →
      runHandler h df (pyLower q) today = notFoundNumDiag "Cost" (dfColumnNames df)) ∧
    (h = Handler.origin → get_column_data df origin_patterns = none →
      runHandler h df (pyLower q) today = notFoundDiag "Origin" (dfColumnNames df)) ∧
    (h = Handler.destination → get_column_data df destination_patterns = none →
      runHandler h df (pyLower q) today = notFoundDiag "Destination" (dfColumnNames df)) ∧
    (h = Handler.weight → get_column_data df weight_patterns = none →
      runHandler h df (pyLower q) today = notFoundNumDiag "Weight" (dfColumnNames df)) ∧
    (h = Handler.priority → get_column_data df priority_patterns = none →
      runHandler h df (pyLower q) today = notFoundDiag "Priority" (dfColumnNames df)) ∧
    (h = Handler.deliveryToday → get_column_data df delivery_date_patterns = none →
      runHandler h df (pyLower q) today = notFoundDiag "Delivery date" (dfColumnNames df)) ∧
    (∀ field cols, strContains (notFoundDiag field cols) field = true ∧
      strContains (notFoundDiag field cols) (joinComma cols) = true) ∧
    (∀ field cols, strContains (notFoundNumDiag field cols) field = true ∧
      strContains (notFoundNumDiag field cols) (joinComma cols) = true) := by
  refine ⟨?_, ?_, ?_, ?_, ?_, ?_, ?_, ?_, ?_, ?_, notFoundDiag_names, notFoundNumDiag_names⟩
  · simp [analyze_question_directly, hroute]
  · intro heq hdp hcol
    subst heq
    simp [runHandler, totalAnswer, hdp, hcol]
  · intro heq hcol
    subst heq
    simp [runHandler, carrierAnswer, hcol]
  · intro heq hcol
    subst heq
    simp [runHandler, statusDistAnswer, hcol]
  · intro heq hcol
    subst heq
    simp [runHandler, costAnswer, hcol]
  · intro heq hcol
    subst heq
    simp [runHandler, originAnswer, hcol]
  · intro heq hcol
    subst heq
    simp [runHandler, destinationAnswer, hcol]
  · intro heq hcol
    subst heq
    simp [runHandler, weightAnswer, hcol]
  · intro heq hcol
    subst heq
    simp [runHandler, priorityAnswer, hcol]
  · intro heq hcol
    subst heq
    simp [runHandler, deliveryTodayAnswer, hcol]

/-- Witness for claim C4: a manifest with only a `Foo` column and a cost
question produce the cost diagnostic. -/
theorem claim_C4_witness :
    routeQuestion "what is the average shipping cost" = some Handler.cost ∧
    analyze_question_directly ⟨[("Foo", [])], 0⟩ "what is the average shipping cost"
        ⟨2026, 10, 12⟩
      = some (notFoundNumDiag "Cost" ["Foo"]) := by
  have hmain := claim_C4 ⟨[("Foo", [])], 0⟩ "what is the average shipping cost"
    ⟨2026, 10, 12⟩ Handler.cost (by decide)
  refine ⟨by decide, ?_⟩
  rw [hmain.1, hmain.2.2.2.2.1 rfl (by decide)]
  rfl

/- ## Claim C5 -/

/-- Claim C5: on a 3-row manifest whose resolved cost column holds
`[25.50, 45.20, None]`, the cost handler reports total `$70.70`, average
`$35.35`, minimum `$25.50`, maximum `$45.20` and a count of 3 shipments, every
currency value carrying a `$` prefix and exactly two decimal digits
(`25.50 = 51/2`, `45.20 = 226/5`). -/
theorem claim_C5 :
    analyze_question_directly
        ⟨[("Shipping_Cost",
          [Value.vnum (mkRat 51 2), Value.vnum (mkRat 226 5), Value.vnull])], 3⟩
        "What is the average shipping cost?" ⟨2026, 10, 12⟩
      = some ("**Cost Analysis:**\n\n• **Total cost:** $70.70\n• **Average cost:** $35.35\n• **Cost range:** $25.50 - $45.20\n• **Number of shipments:** 3") ∧
    strContains "**Cost Analysis:**\n\n• **Total cost:** $70.70\n• **Average cost:** $35.35\n• **Cost range:** $25.50 - $45.20\n• **Number of shipments:** 3" "$70.70" = true ∧
    strContains "**Cost Analysis:**\n\n• **Total cost:** $70.70\n• **Average cost:** $35.35\n• **Cost range:** $25.50 - $45.20\n• **Number of shipments:** 3" "$35.35" = true ∧
    strContains "**Cost Analysis:**\n\n• **Total cost:** $70.70\n• **Average cost:** $35.35\n• **Cost range:** $25.50 - $45.20\n• **Number of shipments:** 3" "$25.50" = true ∧
    strContains "**Cost Analysis:**\n\n• **Total cost:** $70.70\n• **Average cost:** $35.35\n• **Cost range:** $25.50 - $45.20\n• **Number of shipments:** 3" "$45.20" = true ∧
    strContains "**Cost Analysis:**\n\n• **Total cost:** $70.70\n• **Average cost:** $35.35\n• **Cost range:** $25.50 - $45.20\n• **Number of shipments:** 3" "**Number of shipments:** 3" = true := by
  refine ⟨?_, ?_, ?_, ?_, ?_, ?_⟩ <;> decide

/- ## Claim C7 -/

/-- The delivery-today matching predicate as claim C7 words it: the
delivery-date value, taken as a string, contains today's date rendered as
`YYYY-MM-DD`, `MM/DD/YYYY` or `DD/MM/YYYY`, or contains the literal substring
"today" case-insensitively. -/
def claimTodayMatch (v : Value) (today : Date) : Bool :=
  strContains (valueAsString v) (fmtYMD today)
  || strContains (valueAsString v) (fmtMDY today)
  || strContains (valueAsString v) (fmtDMY today)
  || strContains (pyLower (valueAsString v)) "today"

theorem countTrue_map (f : Value → Bool) (l : List Value) :
    countTrue (l.map f) = (l.filter f).length := by
  induction l with
  | nil => rfl
  | cons v vs ih =>
    unfold countTrue at ih ⊢
    cases hf : f v <;>
      simp [List.count_cons, List.filter_cons, hf, ih]

theorem selectMask_map (f : Value → Bool) :
    ∀ (ids vs : List Value),
    selectMask ids (vs.map f)
      = (ids.zip vs).filterMap (fun p => if f p.2 then some p.1 else none) := by
  intro ids
  induction ids with
  | nil => intro vs; rfl
  | cons i it ih =>
    intro vs
    cases vs with
    | nil => rfl
    | cons v vt =>
      show ((i :: it).zip (f v :: vt.map f)).filterMap
          (fun p => if p.2 then some p.1 else none) = _
      have hrec : (it.zip (vt.map f)).filterMap (fun p => if p.2 then some p.1 else none)
          = (it.zip vt).filterMap (fun p => if f p.2 then some p.1 else none) := ih vt
      rw [List.zip_cons_cons, List.zip_cons_cons, List.filterMap_cons, List.filterMap_cons]
      cases hf : f v <;> simp [hf, hrec]

/-- Claim C7: whenever a delivery-today question reaches the delivery-today
handler and the delivery-date column resolves, the handler's count is exactly
the number of rows whose value (as a string) matches today in one of the
three literal formats or contains "today" case-insensitively, and the listed
shipment ids are exactly the ids of those rows (positionally selected when a
shipment-id column also resolves). -/
theorem strContains_chain (b x y t : String) :
    strContains (b ++ (x ++ y) ++ t) (b ++ x) = true := by
  rw [← strAppend_assoc b x y, strAppend_assoc (b ++ x) y t]
  exact strContains_left (b ++ x) (y ++ t)

theorem claim_C7 (df : DF) (q : String) (today : Date) (c : String) (vs : List Value)
    (hroute : routeQuestion q = some Handler.deliveryToday)
    (hcol : get_column_data df delivery_date_patterns = some (c, vs)) :
    analyze_question_directly df q today = some (deliveryTodayAnswer df today) ∧
    countTrue (deliveryTodayMask vs today)
      = (vs.filter (fun v => claimTodayMatch v today)).length ∧
    (∀ ids, selectMask ids (deliveryTodayMask vs today)
      = (ids.zip vs).filterMap
          (fun p => if claimTodayMatch p.2 today then some p.1 else none)) ∧
    strContains (deliveryTodayAnswer df today)
      ("**Shipments Scheduled for Delivery Today:** "
        ++ toString ((vs.filter (fun v => claimTodayMatch v today)).length)
        ++ " out of " ++ toString df.nrows ++ " total shipments") = true := by
  refine ⟨?_, ?_, ?_, ?_⟩
  · simp [analyze_question_directly, hroute, runHandler]
  · exact countTrue_map (fun v => claimTodayMatch v today) vs
  · intro ids
    exact selectMask_map (fun v => claimTodayMatch v today) ids vs
  · rw [← countTrue_map (fun v => claimTodayMatch v today) vs]
    simp only [deliveryTodayAnswer, hcol]
    rw [show (" total shipments\n\n" : String) = " total shipments" ++ "\n\n" from rfl]
    exact strContains_chain _ " total shipments" "\n\n" _

/-- Witness for claim C7 on a two-row manifest where exactly the first row's
delivery date is today. -/
theorem claim_C7_witness :
    routeQuestion "Which shipments are scheduled for delivery today?"
      = some Handler.deliveryToday ∧
    get_column_data
        ⟨[("Delivery_Date", [Value.vstr "2026-10-12", Value.vstr "tomorrow"]),
          ("Shipment_ID", [Value.vstr "S1", Value.vstr "S2"])], 2⟩
        delivery_date_patterns
      = some ("Delivery_Date", [Value.vstr "2026-10-12", Value.vstr "tomorrow"]) ∧
    countTrue (deliveryTodayMask [Value.vstr "2026-10-12", Value.vstr "tomorrow"]
        ⟨2026, 10, 12⟩) = 1 ∧
    analyze_question_directly
        ⟨[("Delivery_Date", [Value.vstr "2026-10-12", Value.vstr "tomorrow"]),
          ("Shipment_ID", [Value.vstr "S1", Value.vstr "S2"])], 2⟩
        "Which shipments are scheduled for delivery today?" ⟨2026, 10, 12⟩
      = some "**Shipments Scheduled for Delivery Today:** 1 out of 2 total shipments\n\n**Today\x27s Deliveries:**\n• S1\n" := by
  have hmain := claim_C7
    ⟨[("Delivery_Date", [Value.vstr "2026-10-12", Value.vstr "tomorrow"]),
      ("Shipment_ID", [Value.vstr "S1", Value.vstr "S2"])], 2⟩
    "Which shipments are scheduled for delivery today?" ⟨2026, 10, 12⟩
    "Delivery_Date" [Value.vstr "2026-10-12", Value.vstr "tomorrow"]
    (by decide) (by decide)
  refine ⟨by decide, by decide, hmain.2.1.trans (by decide), ?_⟩
  rw [hmain.1]
  decide

/- ## Claim C8: `ColumnMapper.generate_mapping_suggestions` -/

/-- Python `possible_name.split()` (the candidate variants contain only
single spaces). -/
def splitSpacesGo : List Char → List Char → List (List Char)
  | acc, [] => [acc.reverse]
  | acc, c :: rest =>
    if c == ' ' then acc.reverse :: splitSpacesGo [] rest
    else splitSpacesGo (c :: acc) rest

/-- Python `s.split()`: split on spaces, dropping empty parts. -/
def pySplitWs (s : String) : List String :=
  (splitSpacesGo [] s.data).filterMap (fun l => if l.isEmpty then none else some ⟨l⟩)

/-- The tier of one candidate variant against one (lower-cased) column name,
from `ColumnMapper.generate_mapping_suggestions`: exact match scores 1.0
(`mkRat 1 1`), candidate-substring-of-column 0.8 (`mkRat 4 5`),
word-of-candidate-in-column 0.6 (`mkRat 3 5`), column-substring-of-candidate
0.4 (`mkRat 2 5`), else 0. -/
def tierScore (possible_name : String) (df_col_lower : String) : ℚ :=
  if df_col_lower == possible_name then mkRat 1 1
  else if strContains df_col_lower possible_name then mkRat 4 5
  else if (pySplitWs possible_name).any (fun part => strContains df_col_lower part) then
    mkRat 3 5
  else if strContains possible_name df_col_lower then mkRat 2 5
  else mkRat 0 1

/-- Python `max`. -/
def qMaxB (a b : ℚ) : ℚ := if a < b then b else a

/-- The running-maximum score of a column over the candidate variants, as the
source loop computes it (`max_score = max(max_score, score)`). -/
def scoreOf (possible_names : List String) (df_col : String) : ℚ :=
  possible_names.foldl (fun maxScore n => qMaxB maxScore (tierScore n (pyLower df_col)))
    (mkRat 0 1)

/-- Match strength as claim C8 words it: the best tier over the candidate
variants. -/
def claimStrength (possible_names : List String) (df_col : String) : ℚ :=
  (possible_names.map (fun n => tierScore n (pyLower df_col))).foldr qMaxB (mkRat 0 1)

/-- Stable insertion keeping scores descending (Python's stable
`sort(key=..., reverse=True)`). -/
def insDescQ (a : String × ℚ) : List (String × ℚ) → List (String × ℚ)
  | [] => [a]
  | b :: t => if b.2 < a.2 then a :: b :: t else b :: insDescQ a t

/-- Stable descending sort by score. -/
def sortDescQ (l : List (String × ℚ)) : List (String × ℚ) :=
  l.foldl (fun acc a => insDescQ a acc) []

/-- The `ColumnMapper.generate_mapping_suggestions` method from
`utils/column_utils.py`: for each standard field left unmapped by
`detect_column_mapping`, the columns with positive running-maximum score,
sorted by score descending (stable) and truncated to the top 3. -/
def generate_mapping_suggestions (cols : List String) :
    List (String × List (String × ℚ)) :=
  STANDARD_COLUMNS.filterMap (fun p =>
    if mappingGet (detect_column_mapping cols) p.1 = none then
      let column_scores := cols.filterMap (fun df_col =>
        if mkRat 0 1 < scoreOf p.2 df_col then some (df_col, scoreOf p.2 df_col) else none)
      some (p.1, (sortDescQ column_scores).take 3)
    else none)

theorem qMaxB_eq_max (a b : ℚ) : qMaxB a b = max a b := by
  unfold qMaxB
  rcases le_or_lt b a with h | h
  · rw [if_neg (not_lt.mpr h), max_eq_left h]
  · rw [if_pos h, max_eq_right h.le]

theorem foldr_max_init (t : List ℚ) : ∀ e a,
    t.foldr max (max e a) = max a (t.foldr max e) := by
  induction t with
  | nil => intro e a; exact max_comm e a
  | cons b bt ih =>
    intro e a
    simp only [List.foldr_cons, ih e a]
    exact max_left_comm b a (bt.foldr max e)

theorem foldl_max_eq_foldr_max (l : List ℚ) : ∀ e, l.foldl max e = l.foldr max e := by
  induction l with
  | nil => intro e; rfl
  | cons a t ih =>
    intro e
    simp only [List.foldl_cons, List.foldr_cons, ih (max e a), foldr_max_init]

theorem scoreOf_eq_claimStrength (possible_names : List String) (df_col : String) :
    scoreOf possible_names df_col = claimStrength possible_names df_col := by
  unfold scoreOf claimStrength
  have hmax : qMaxB = fun a b => max a b := funext (fun a => funext (fun b => qMaxB_eq_max a b))
  rw [hmax]
  rw [← List.foldl_map (fun n => tierScore n (pyLower df_col)) (fun a b => max a b)]
  exact foldl_max_eq_foldr_max _ _

theorem mem_insDescQ (x a : String × ℚ) : ∀ (l : List (String × ℚ)),
    x ∈ insDescQ a l ↔ x = a ∨ x ∈ l := by
  intro l
  induction l with
  | nil => simp [insDescQ]
  | cons b t ih =>
    unfold insDescQ
    by_cases hb : b.2 < a.2
    · simp [hb]
    · simp [hb, ih]
      tauto

theorem mem_sortDescQ_aux (x : String × ℚ) : ∀ (l acc : List (String × ℚ)),
    x ∈ l.foldl (fun acc a => insDescQ a acc) acc ↔ x ∈ acc ∨ x ∈ l := by
  intro l
  induction l with
  | nil => simp
  | cons a t ih =>
    intro acc
    simp only [List.foldl_cons, ih (insDescQ a acc), mem_insDescQ, List.mem_cons]
    tauto

theorem mem_sortDescQ (x : String × ℚ) (l : List (String × ℚ)) :
    x ∈ sortDescQ l ↔ x ∈ l := by
  unfold sortDescQ
  rw [mem_sortDescQ_aux]
  simp

theorem pairwise_insDescQ (a : String × ℚ) : ∀ (l : List (String × ℚ)),
    l.Pairwise (fun x y => y.2 ≤ x.2) →
    (insDescQ a l).Pairwise (fun x y => y.2 ≤ x.2) := by
  intro l
  induction l with
  | nil => intro _; simp [insDescQ]
  | cons b t ih =>
    intro hp
    rw [List.pairwise_cons] at hp
    unfold insDescQ
    by_cases hb : b.2 < a.2
    · rw [if_pos hb]
      refine List.Pairwise.cons ?_ (List.Pairwise.cons hp.1 hp.2)
      intro y hy
      rcases List.mem_cons.mp hy with h | h
      · rw [h]; exact hb.le
      · exact (hp.1 y h).trans hb.le
    · rw [if_neg hb]
      refine List.Pairwise.cons ?_ (ih hp.2)
      intro y hy
      rcases (mem_insDescQ y a t).mp hy with h | h
      · rw [h]; exact not_lt.mp hb
      · exact hp.1 y h

theorem pairwise_sortDescQ_aux : ∀ (l acc : List (String × ℚ)),
    acc.Pairwise (fun x y => y.2 ≤ x.2) →
    (l.foldl (fun acc a => insDescQ a acc) acc).Pairwise (fun x y => y.2 ≤ x.2) := by
  intro l
  induction l with
  | nil => intro acc h; exact h
  | cons a t ih =>
    intro acc h
    exact ih (insDescQ a acc) (pairwise_insDescQ a acc h)

theorem pairwise_sortDescQ (l : List (String × ℚ)) :
    (sortDescQ l).Pairwise (fun x y => y.2 ≤ x.2) :=
  pairwise_sortDescQ_aux l [] (List.Pairwise.nil)

/-- Claim C8: for every standard field left unmapped by the resolver, the
suggestion mode returns at most 3 suggested columns, ranked in descending
match strength, and every suggested column is an uploaded column whose
strength is positive and equals the best tier over the field's candidate
variants — exact match `mkRat 1 1` (1.0), candidate-substring-of-column
`mkRat 4 5` (0.8), word-of-candidate-in-column `mkRat 3 5` (0.6),
column-substring-of-candidate `mkRat 2 5` (0.4). -/
theorem claim_C8 (cols : List String) (field : String) (sugg : List (String × ℚ))
    (hmem : (field, sugg) ∈ generate_mapping_suggestions cols) :
    sugg.length ≤ 3 ∧
    sugg.Pairwise (fun x y => y.2 ≤ x.2) ∧
    mappingGet (detect_column_mapping cols) field = none ∧
    ∃ variants, (field, variants) ∈ STANDARD_COLUMNS ∧
      ∀ cs ∈ sugg, cs.1 ∈ cols ∧ cs.2 = claimStrength variants cs.1 ∧
        mkRat 0 1 < cs.2 := by
  unfold generate_mapping_suggestions at hmem
  obtain ⟨p, hp, heq⟩ := List.mem_filterMap.mp hmem
  by_cases hnone : mappingGet (detect_column_mapping cols) p.1 = none
  · rw [if_pos hnone] at heq
    have hpair := Option.some.inj heq
    have hfield : p.1 = field := congrArg Prod.fst hpair
    have hsugg : (sortDescQ (cols.filterMap (fun df_col =>
        if mkRat 0 1 < scoreOf p.2 df_col then some (df_col, scoreOf p.2 df_col)
        else none))).take 3 = sugg := congrArg Prod.snd hpair
    refine ⟨?_, ?_, ?_, ⟨p.2, ?_, ?_⟩⟩
    · rw [← hsugg]
      exact List.length_take_le 3 _
    · rw [← hsugg]
      exact List.Pairwise.sublist (List.take_sublist 3 _) (pairwise_sortDescQ _)
    · rw [← hfield]
      exact hnone
    · rw [← hfield]
      exact hp
    · intro cs hcs
      rw [← hsugg] at hcs
      have hcs2 := (mem_sortDescQ cs _).mp (List.mem_of_mem_take hcs)
      obtain ⟨col, hcol, hcseq⟩ := List.mem_filterMap.mp hcs2
      by_cases hpos : mkRat 0 1 < scoreOf p.2 col
      · rw [if_pos hpos] at hcseq
        have hcseq2 := Option.some.inj hcseq
        rw [← hcseq2]
        exact ⟨hcol, scoreOf_eq_claimStrength p.2 col, hpos⟩
      · rw [if_neg hpos] at hcseq
        cases hcseq
  · rw [if_neg hnone] at heq
    cases heq

/-- Witness for claim C8: with the single uploaded column `"CarrierName"`,
the unmapped field carrier gets the one suggestion `("CarrierName", 0.8)`. -/
theorem claim_C8_witness :
    ("carrier", [("CarrierName", mkRat 4 5)]) ∈ generate_mapping_suggestions ["CarrierName"] ∧
    ([("CarrierName", mkRat 4 5)] : List (String × ℚ)).length ≤ 3 ∧
    ([("CarrierName", mkRat 4 5)] : List (String × ℚ)).Pairwise (fun x y => y.2 ≤ x.2) ∧
    mappingGet (detect_column_mapping ["CarrierName"]) "carrier" = none := by
  have hmem : ("carrier", [("CarrierName", mkRat 4 5)])
      ∈ generate_mapping_suggestions ["CarrierName"] := by decide
  have hmain := claim_C8 ["CarrierName"] "carrier" [("CarrierName", mkRat 4 5)] hmem
  exact ⟨hmem, hmain.1, hmain.2.1, hmain.2.2.1⟩

/- ## `tabs/route_optimization_tab.py`: Haversine distance (claim C9) -/

/-- Python `math.radians`. -/
noncomputable def radians (x : ℝ) : ℝ := x * Real.pi / 180

/-- The `calculate_distance` function from `tabs/route_optimization_tab.py`:
Haversine distance with Earth radius `R = 3959` miles. -/
noncomputable def calculate_distance (lat1 lon1 lat2 lon2 : ℝ) : ℝ :=
  let R : ℝ := 3959
  let lat1r := radians lat1
  let lon1r := radians lon1
  let lat2r := radians lat2
  let lon2r := radians lon2
  let dlat := lat2r - lat1r
  let dlon := lon2r - lon1r
  let a := Real.sin (dlat / 2) ^ 2
    + Real.cos lat1r * Real.cos lat2r * Real.sin (dlon / 2) ^ 2
  let c := 2 * Real.arcsin (Real.sqrt a)
  R * c

/-- The distance formula as claim C9 words it: convert degrees to radians,
take `a = sin²(Δlat/2) + cos(lat1)·cos(lat2)·sin²(Δlon/2)` and return
`2·R·asin(√a)` with `R = 3959` miles. -/
noncomputable def haversineSpec (lat1 lon1 lat2 lon2 : ℝ) : ℝ :=
  2 * 3959 * Real.arcsin (Real.sqrt
    (Real.sin ((radians lat2 - radians lat1) / 2) ^ 2
      + Real.cos (radians lat1) * Real.cos (radians lat2)
        * Real.sin ((radians lon2 - radians lon1) / 2) ^ 2))

set_option maxHeartbeats 1000000 in
/-- Claim C9: the code computes exactly the claimed Haversine formula, and on
London → Manchester (51.5074, -0.1278) → (53.4808, -2.2426) the distance is
within 5 miles of 163. -/
theorem claim_C9 :
    (∀ lat1 lon1 lat2 lon2 : ℝ,
      calculate_distance lat1 lon1 lat2 lon2 = haversineSpec lat1 lon1 lat2 lon2) ∧
    |calculate_distance 51.5074 (-0.1278) 53.4808 (-2.2426) - 163| ≤ 5 := by
  have hform : ∀ lat1 lon1 lat2 lon2 : ℝ,
      calculate_distance lat1 lon1 lat2 lon2 = haversineSpec lat1 lon1 lat2 lon2 := by
    intro lat1 lon1 lat2 lon2
    simp only [calculate_distance, haversineSpec]
    ring
  refine ⟨hform, ?_⟩
  clear hform
  have hpi1 : (3.141592 : ℝ) < Real.pi := Real.pi_gt_3141592
  have hpi2 : Real.pi < 3.141593 := Real.pi_lt_3141593
  have hD : calculate_distance 51.5074 (-0.1278) 53.4808 (-2.2426)
      = 7918 * Real.arcsin (Real.sqrt
          (Real.sin (0.9867 * Real.pi / 180) ^ 2
            + Real.cos (51.5074 * Real.pi / 180) * Real.cos (53.4808 * Real.pi / 180)
              * Real.sin (1.0574 * Real.pi / 180) ^ 2)) := by
    simp only [calculate_distance, radians]
    rw [show ((-2.2426 : ℝ) * Real.pi / 180 - -0.1278 * Real.pi / 180) / 2
        = -(1.0574 * Real.pi / 180) by ring]
    rw [Real.sin_neg, neg_sq]
    rw [show ((53.4808 : ℝ) * Real.pi / 180 - 51.5074 * Real.pi / 180) / 2
        = 0.9867 * Real.pi / 180 by ring]
    ring
  rw [hD]
  clear hD
  set u : ℝ := 0.9867 * Real.pi / 180 with hu_def
  set v : ℝ := 1.0574 * Real.pi / 180 with hv_def
  set x1 : ℝ := 51.5074 * Real.pi / 180 with hx1_def
  set x2 : ℝ := 53.4808 * Real.pi / 180 with hx2_def
  have hu_lo : (0.01722116 : ℝ) ≤ u := by rw [hu_def]; linarith
  have hu_hi : u ≤ 0.01722117 := by rw [hu_def]; linarith
  have hu0 : (0 : ℝ) < u := by linarith
  have hv_lo : (0.01845510 : ℝ) ≤ v := by rw [hv_def]; linarith
  have hv_hi : v ≤ 0.01845512 := by rw [hv_def]; linarith
  have hv0 : (0 : ℝ) < v := by linarith
  have hx1_lo : (0.89897353 : ℝ) ≤ x1 := by rw [hx1_def]; linarith
  have hx1_hi : x1 ≤ 0.89897382 := by rw [hx1_def]; linarith
  have hx2_lo : (0.93341585 : ℝ) ≤ x2 := by rw [hx2_def]; linarith
  have hx2_hi : x2 ≤ 0.93341615 := by rw [hx2_def]; linarith
  have hs1_hi : Real.sin u ≤ 0.01722117 := le_trans (Real.sin_lt hu0).le hu_hi
  have hu_cube : u ^ 3 ≤ (0.01722117 : ℝ) ^ 3 := pow_le_pow_left hu0.le hu_hi 3
  have hs1_lo : (0.01721988 : ℝ) ≤ Real.sin u := by
    have h := Real.sin_gt_sub_cube hu0 (by linarith : u ≤ 1)
    linarith [h, hu_lo, hu_cube]
  have hs1_nonneg : (0 : ℝ) ≤ Real.sin u := by linarith
  have hs1sq_lo : (0.01721988 : ℝ) ^ 2 ≤ Real.sin u ^ 2 :=
    pow_le_pow_left (by norm_num) hs1_lo 2
  have hs1sq_hi : Real.sin u ^ 2 ≤ (0.01722117 : ℝ) ^ 2 :=
    pow_le_pow_left hs1_nonneg hs1_hi 2
  have hs2_hi : Real.sin v ≤ 0.01845512 := le_trans (Real.sin_lt hv0).le hv_hi
  have hv_cube : v ^ 3 ≤ (0.01845512 : ℝ) ^ 3 := pow_le_pow_left hv0.le hv_hi 3
  have hs2_lo : (0.01845352 : ℝ) ≤ Real.sin v := by
    have h := Real.sin_gt_sub_cube hv0 (by linarith : v ≤ 1)
    linarith [h, hv_lo, hv_cube]
  have hs2_nonneg : (0 : ℝ) ≤ Real.sin v := by linarith
  have hs2sq_lo : (0.01845352 : ℝ) ^ 2 ≤ Real.sin v ^ 2 :=
    pow_le_pow_left (by norm_num) hs2_lo 2
  have hs2sq_hi : Real.sin v ^ 2 ≤ (0.01845512 : ℝ) ^ 2 :=
    pow_le_pow_left hs2_nonneg hs2_hi 2
  have hx1_pos : (0 : ℝ) ≤ x1 := by linarith
  have hx2_pos : (0 : ℝ) ≤ x2 := by linarith
  have hc1_lo : (0.595923 : ℝ) ≤ Real.cos x1 := by
    have h := Real.one_sub_sq_div_two_le_cos (x := x1)
    have hsq : x1 ^ 2 ≤ (0.89897382 : ℝ) ^ 2 := pow_le_pow_left hx1_pos hx1_hi 2
    linarith [h, hsq]
  have hc1_hi : Real.cos x1 ≤ 0.629940 := by
    have h := Real.cos_bound (x := x1)
      (by rw [abs_of_nonneg hx1_pos]; nlinarith)
    rw [abs_of_nonneg hx1_pos] at h
    have h2 := abs_le.mp h
    have hsq_lo : (0.89897353 : ℝ) ^ 2 ≤ x1 ^ 2 := pow_le_pow_left (by norm_num) hx1_lo 2
    have hp4 : x1 ^ 4 ≤ (0.89897382 : ℝ) ^ 4 := pow_le_pow_left hx1_pos hx1_hi 4
    linarith [h2.2, hsq_lo, hp4]
  have hc2_lo : (0.564367 : ℝ) ≤ Real.cos x2 := by
    have h := Real.one_sub_sq_div_two_le_cos (x := x2)
    have hsq : x2 ^ 2 ≤ (0.93341615 : ℝ) ^ 2 := pow_le_pow_left hx2_pos hx2_hi 2
    linarith [h, hsq]
  have hc2_hi : Real.cos x2 ≤ 0.603905 := by
    have h := Real.cos_bound (x := x2)
      (by rw [abs_of_nonneg hx2_pos]; nlinarith)
    rw [abs_of_nonneg hx2_pos] at h
    have h2 := abs_le.mp h
    have hsq_lo : (0.93341585 : ℝ) ^ 2 ≤ x2 ^ 2 := pow_le_pow_left (by norm_num) hx2_lo 2
    have hp4 : x2 ^ 4 ≤ (0.93341615 : ℝ) ^ 4 := pow_le_pow_left hx2_pos hx2_hi 4
    linarith [h2.2, hsq_lo, hp4]
  have hprod_lo : (0.336319 : ℝ) ≤ Real.cos x1 * Real.cos x2 := by
    have h := mul_le_mul hc1_lo hc2_lo (by norm_num) (by linarith)
    linarith [h]
  have hprod_hi : Real.cos x1 * Real.cos x2 ≤ 0.380428 := by
    have h := mul_le_mul hc1_hi hc2_hi (by linarith) (by norm_num)
    linarith [h]
  set A : ℝ := Real.sin u ^ 2 + Real.cos x1 * Real.cos x2 * Real.sin v ^ 2 with hA_def
  have hA_lo : (0.000411 : ℝ) ≤ A := by
    rw [hA_def]
    have h := mul_le_mul hprod_lo hs2sq_lo (by norm_num) (by linarith)
    linarith [h, hs1sq_lo]
  have hA_hi : A ≤ 0.000428 := by
    rw [hA_def]
    have h := mul_le_mul hprod_hi hs2sq_hi (sq_nonneg (Real.sin v)) (by norm_num)
    linarith [h, hs1sq_hi]
  have hS_lo : (0.02027 : ℝ) ≤ Real.sqrt A :=
    (Real.le_sqrt' (by norm_num)).mpr (by linarith)
  have hS_hi : Real.sqrt A ≤ 0.0207 := by
    calc Real.sqrt A ≤ Real.sqrt ((0.0207 : ℝ) ^ 2) := Real.sqrt_le_sqrt (by linarith)
    _ = 0.0207 := Real.sqrt_sq (by norm_num)
  have hmem1 : Real.sqrt A ∈ Set.Icc (-1 : ℝ) 1 :=
    ⟨by linarith [Real.sqrt_nonneg A], by linarith⟩
  have hasin_lo : (0.02027 : ℝ) ≤ Real.arcsin (Real.sqrt A) := by
    rw [Real.le_arcsin_iff_sin_le ⟨by linarith, by linarith⟩ hmem1]
    have h := Real.sin_lt (show (0 : ℝ) < 0.02027 by norm_num)
    linarith [h]
  have hasin_hi : Real.arcsin (Real.sqrt A) ≤ 0.0212 := by
    rw [Real.arcsin_le_iff_le_sin hmem1 ⟨by linarith, by linarith⟩]
    have h := Real.sin_gt_sub_cube (show (0 : ℝ) < 0.0212 by norm_num) (by norm_num)
    linarith [h]
  rw [abs_le]
  constructor
  · linarith [hasin_lo]
  · linarith [hasin_hi]
